import Mathlib

/-!
Shallow embedding of the Transvoxel polygonizer of
src/meshers/transvoxel/voxel_mesher_transvoxel.cpp.

Modelling conventions:
* 8-bit voxel samples are natural numbers reduced mod 256 at the read site.
* Signed 8-bit quantities are integers (the C++ values always fit, no wrap occurs).
* float / real_t arithmetic is idealized as exact rational arithmetic; the single
  irrational primitive Math.sqrt is threaded through as an abstract function
  parameter sq together with its defining property where a claim needs it.
* C++ integer division (which truncates toward zero) is Int.tdiv; the expression
  t AND 0xff on a machine integer t equals Int.emod t 256.
* Godot's ERR_FAIL_COND macro logs and RETURNS from the enclosing function; a
  step of the sweep therefore returns Except, where error carries the state at
  the moment the whole build function returned early.
* CRASH_COND aborts the process; array reads are totalized with getD (an
  out-of-bounds slot reads as a fresh slot full of -1, and an out-of-bounds
  List.set is a no-op), which never happens in the crash-free executions the
  claims are about.
* The case tables included from transvoxel_tables.cpp are not part of the
  sources; they are parameters of the embedding (structures RegularTables and
  TransitionTables below).
-/

/-- Integer 3-vector, mirroring Vector3i. -/
structure Vec3i where
  x : ℤ
  y : ℤ
  z : ℤ
deriving DecidableEq

instance : Add Vec3i := ⟨fun a b => ⟨a.x + b.x, a.y + b.y, a.z + b.z⟩⟩

instance : Sub Vec3i := ⟨fun a b => ⟨a.x - b.x, a.y - b.y, a.z - b.z⟩⟩

instance : Inhabited Vec3i := ⟨⟨0, 0, 0⟩⟩

/-- Axis getter, mirroring operator[] on Vector3i (AXIS_X = 0, AXIS_Y = 1, AXIS_Z = 2). -/
def Vec3i.axis (v : Vec3i) : Nat → ℤ
  | 0 => v.x
  | 1 => v.y
  | 2 => v.z
  | _ => 0

/-- Rational 3-vector, mirroring Vector3 (float components idealized as ℚ). -/
structure Vec3 where
  x : ℚ
  y : ℚ
  z : ℚ
deriving DecidableEq

instance : Add Vec3 := ⟨fun a b => ⟨a.x + b.x, a.y + b.y, a.z + b.z⟩⟩

instance : Sub Vec3 := ⟨fun a b => ⟨a.x - b.x, a.y - b.y, a.z - b.z⟩⟩

instance : SMul ℚ Vec3 := ⟨fun q v => ⟨q * v.x, q * v.y, q * v.z⟩⟩

instance : Zero Vec3 := ⟨⟨0, 0, 0⟩⟩

instance : Inhabited Vec3 := ⟨0⟩

/-- Dot product of two Vector3. -/
def Vec3.dot (a b : Vec3) : ℚ :=
  a.x * b.x + a.y * b.y + a.z * b.z

/-- Vector3.length_squared. -/
def Vec3.lengthSq (v : Vec3) : ℚ :=
  v.x * v.x + v.y * v.y + v.z * v.z

/-- Vector3i.to_vec3. -/
def Vec3i.toVec3 (v : Vec3i) : Vec3 :=
  ⟨(v.x : ℚ), (v.y : ℚ), (v.z : ℚ)⟩

/-- The abstract voxel container (VoxelBuffer), out of scope per the spec:
a 3D grid of raw 8-bit samples on the SDF channel (data), a second attribute
channel (data2, CHANNEL_DATA2), a size, and the uniform fast-path flag. -/
structure VoxelBuffer where
  sizeV : Vec3i
  data : Vec3i → ℕ
  data2 : Vec3i → ℕ
  uniform : Bool

/-- MIN_PADDING constant of the mesher. -/
def MIN_PADDING : ℤ := 1

/-- MAX_PADDING constant of the mesher. -/
def MAX_PADDING : ℤ := 2

/-- TRANSITION_CELL_SCALE constant (0.25). -/
def TRANSITION_CELL_SCALE : ℚ := 1 / 4

/-- tof: converts a signed 8-bit value to float, dividing by 256. -/
def tof (v : ℤ) : ℚ := (v : ℚ) / 256

/-- tos: converts an unsigned 8-bit value to the signed reinterpretation v - 128. -/
def tos (v : ℕ) : ℤ := (v : ℤ) - 128

/-- sign: 1 for negative signed samples, 0 otherwise ((v >> 7) AND 1 on int8_t). -/
def sign (v : ℤ) : ℕ := if v < 0 then 1 else 0

/-- get_voxel wrapper which inverts the raw SDF sample: 255 - vb.get_voxel(...).
The raw sample is an 8-bit value, modelled by reducing mod 256 at the read. -/
def get_voxel (vb : VoxelBuffer) (pos : Vec3i) : ℕ :=
  255 - vb.data pos % 256

/-- get_border_offset: per-axis offset delta of a boundary vertex making room
for transition cells (the loop body of the source, one axis). -/
def border_offset_axis (lod : ℕ) (p : ℚ) (s : ℚ) : ℚ :=
  let p2k : ℚ := 2 ^ lod
  let p2mk : ℚ := 1 / p2k
  let wk : ℚ := TRANSITION_CELL_SCALE * p2k
  if p < p2k then (1 - p2mk * p) * wk
  else if p2k * (s - 1) < p then (p2k * s - 1 - p) * wk
  else 0

/-- get_border_offset: the delta vector, one border_offset_axis per axis with
p = pos[i] - min_pos[i] and s = block_size[i]. -/
def get_border_offset (pos : Vec3) (lod : ℕ) (block_size min_pos : Vec3i) : Vec3 :=
  ⟨border_offset_axis lod (pos.x - (min_pos.x : ℚ)) (block_size.x : ℚ),
   border_offset_axis lod (pos.y - (min_pos.y : ℚ)) (block_size.y : ℚ),
   border_offset_axis lod (pos.z - (min_pos.z : ℚ)) (block_size.z : ℚ)⟩

/-- project_border_offset: the explicit 3x3 (I - n nT) matrix product of the source. -/
def project_border_offset (delta normal : Vec3) : Vec3 :=
  ⟨(1 - normal.x * normal.x) * delta.x - normal.y * normal.x * delta.y - normal.z * normal.x * delta.z,
   -(normal.x * normal.y * delta.x) + (1 - normal.y * normal.y) * delta.y - normal.z * normal.y * delta.z,
   -(normal.x * normal.z * delta.x) - normal.y * normal.z * delta.y + (1 - normal.z * normal.z) * delta.z⟩

/-- get_secondary_position: primary + projected border offset. -/
def get_secondary_position (primary normal : Vec3) (lod : ℕ) (block_size min_pos : Vec3i) : Vec3 :=
  primary + project_border_offset (get_border_offset primary lod block_size min_pos) normal

/-- get_border_mask: low 6 bits of face membership of pos within [min_pos, max_pos]. -/
def get_border_mask (pos min_pos max_pos : Vec3i) : ℕ :=
  (if pos.x = min_pos.x then 1 else 0) ||| (if pos.x = max_pos.x then 2 else 0) |||
  (if pos.y = min_pos.y then 4 else 0) ||| (if pos.y = max_pos.y then 8 else 0) |||
  (if pos.z = min_pos.z then 16 else 0) ||| (if pos.z = max_pos.z then 32 else 0)

/-- normalized_not_null: normalizes a gradient, falling back to (0,1,0) on a
zero-length input. The square root primitive is the parameter sq. -/
def normalized_not_null (sq : ℚ → ℚ) (n : Vec3) : Vec3 :=
  if n.lengthSq = 0 then ⟨0, 1, 0⟩
  else
    let length := sq n.lengthSq
    ⟨n.x / length, n.y / length, n.z / length⟩

/-- Modelled from the spec (section 4.4 step 2): the border offset written as the
piecewise formula of the specification, for comparison with get_border_offset.
With q = p[i] - min_pos[i] and k = 2^lod, w = 0.25 k: delta[i] is (1 - q/k) w
for q < k, (k S[i] - 1 - q) w for q > k (S[i]-1), else 0. -/
def spec_border_offset (pos : Vec3) (lod : ℕ) (block_size min_pos : Vec3i) : Vec3 :=
  let k : ℚ := 2 ^ lod
  let w : ℚ := (1 / 4 : ℚ) * k
  let f : ℚ → ℚ → ℚ := fun q s =>
    if q < k then (1 - q / k) * w
    else if k * (s - 1) < q then (k * s - 1 - q) * w
    else 0
  ⟨f (pos.x - (min_pos.x : ℚ)) (block_size.x : ℚ),
   f (pos.y - (min_pos.y : ℚ)) (block_size.y : ℚ),
   f (pos.z - (min_pos.z : ℚ)) (block_size.z : ℚ)⟩

/-- One slot of the regular-pass vertex reuse cache (ReuseCell): 4 vertex indices. -/
def ReuseCell : Type := List ℤ

instance : Inhabited ReuseCell := ⟨List.replicate 4 (-1)⟩

/-- One slot of the transition-pass cache (ReuseTransitionCell): up to 10 indices
(size taken from the spec, section 3 Reuse caches; the header is not in the sources). -/
def ReuseTransitionCell : Type := List ℤ

instance : Inhabited ReuseTransitionCell := ⟨List.replicate 10 (-1)⟩

/-- Color (r,g,b,a), used for the extra output attribute. -/
structure Color where
  r : ℚ
  g : ℚ
  b : ℚ
  a : ℚ
deriving DecidableEq

/-- The per-instance mutable state of VoxelMesherTransvoxel: the four output
buffers, the two reuse caches (two decks / two rows each) and _block_size. -/
structure MesherState where
  vertices : List Vec3
  normals : List Vec3
  extra : List Color
  indices : List ℤ
  cache : List ReuseCell × List ReuseCell
  cache2 : List ReuseTransitionCell × List ReuseTransitionCell
  blockSize : Vec3i

/-- clear_output: empties the four output buffers (capacity kept, caches kept). -/
def clear_output (s : MesherState) : MesherState :=
  { s with vertices := [], normals := [], extra := [], indices := [] }

/-- reset_reuse_cells: stores _block_size and refills both decks, each of
size.x * size.y slots, with -1 entries. -/
def reset_reuse_cells (block_size : Vec3i) (s : MesherState) : MesherState :=
  { s with
    blockSize := block_size,
    cache :=
      (List.replicate (block_size.x * block_size.y).toNat (List.replicate 4 (-1)),
       List.replicate (block_size.x * block_size.y).toNat (List.replicate 4 (-1))) }

/-- reset_reuse_cells_2d: refills both rows, each of size.x slots, with -1 entries. -/
def reset_reuse_cells_2d (block_size : Vec3i) (s : MesherState) : MesherState :=
  { s with
    cache2 :=
      (List.replicate block_size.x.toNat (List.replicate 10 (-1)),
       List.replicate block_size.x.toNat (List.replicate 10 (-1))) }

/-- get_reuse_cell: deck chosen by pos.z AND 1, slot index pos.y * _block_size.y + pos.x
(the source really uses the y component of the size as the row stride). -/
def get_reuse_cell (s : MesherState) (pos : Vec3i) : ReuseCell :=
  (if pos.z.emod 2 = 1 then s.cache.2 else s.cache.1).getD
    (pos.y * s.blockSize.y + pos.x).toNat (List.replicate 4 (-1))

/-- get_reuse_cell_2d: row chosen by y AND 1, slot index x. -/
def get_reuse_cell_2d (s : MesherState) (x y : ℤ) : ReuseTransitionCell :=
  (if y.emod 2 = 1 then s.cache2.2 else s.cache2.1).getD x.toNat (List.replicate 10 (-1))

/-- Helper for writes into a deck: replaces entry k of slot i (no-op out of bounds,
where the source would have crashed on the slot array bound check). -/
def update_slot (deck : List (List ℤ)) (i k : ℕ) (v : ℤ) : List (List ℤ) :=
  deck.set i ((deck.getD i (List.replicate 4 (-1))).set k v)

/-- Write to slot entry k of the regular reuse cell addressed by pos (the C++
writes through the reference returned by get_reuse_cell). -/
def set_reuse_slot (s : MesherState) (pos : Vec3i) (k : ℕ) (v : ℤ) : MesherState :=
  let i := (pos.y * s.blockSize.y + pos.x).toNat
  if pos.z.emod 2 = 1 then
    { s with cache := (s.cache.1, update_slot s.cache.2 i k v) }
  else
    { s with cache := (update_slot s.cache.1 i k v, s.cache.2) }

/-- Helper for writes into a 2D cache row. -/
def update_slot_2d (row : List (List ℤ)) (i k : ℕ) (v : ℤ) : List (List ℤ) :=
  row.set i ((row.getD i (List.replicate 10 (-1))).set k v)

/-- Write to slot entry k of the transition reuse cell addressed by (x, y). -/
def set_reuse_slot_2d (s : MesherState) (x y : ℤ) (k : ℕ) (v : ℤ) : MesherState :=
  if y.emod 2 = 1 then
    { s with cache2 := (s.cache2.1, update_slot_2d s.cache2.2 x.toNat k v) }
  else
    { s with cache2 := (update_slot_2d s.cache2.1 x.toNat k v, s.cache2.2) }

/-- emit_vertex: appends the unpadded primary position and the normal to the
output buffers; the returned index is the position of the new vertex.
(The secondary position is currently not stored by the source; the subtraction
of MIN_PADDING from it has no observable effect and the value is dropped.) -/
def emit_vertex (s : MesherState) (primary normal : Vec3) : MesherState :=
  { s with
    vertices := s.vertices ++ [primary - ⟨(MIN_PADDING : ℚ), (MIN_PADDING : ℚ), (MIN_PADDING : ℚ)⟩],
    normals := s.normals ++ [normal] }

/-- Push of the extra attribute Color(0, texture_idx, 0, border_mask). -/
def push_extra (s : MesherState) (texture_idx : ℚ) (border_mask : ℕ) : MesherState :=
  { s with extra := s.extra ++ [⟨0, texture_idx, 0, (border_mask : ℚ)⟩] }

/-- Append a batch of triangle vertex indices to the index buffer. -/
def push_indices (s : MesherState) (l : List ℤ) : MesherState :=
  { s with indices := s.indices ++ l }

/-- scale_output: multiplies every vertex and the r,g,b of every extra entry by factor. -/
def scale_output (factor : ℚ) (s : MesherState) : MesherState :=
  { s with
    vertices := s.vertices.map (fun v => factor • v),
    extra := s.extra.map (fun c => ⟨factor * c.r, factor * c.g, factor * c.b, c.a⟩) }

/-- RegularCellData: geometryCounts byte plus the triangle vertex-index list
accessor get_vertex_index. -/
structure RegularCellData where
  geometryCounts : ℕ
  vertexIndex : ℕ → ℕ

/-- The regular-cell case tables (contents of transvoxel_tables.cpp, not in the
sources, hence parameters): class lookup, per-class geometry, per-case 16-bit
vertex descriptors. -/
structure RegularTables where
  cellClass : ℕ → ℕ
  cellData : ℕ → RegularCellData
  vertexData : ℕ → ℕ → ℕ

/-- TransitionCellData with its GetVertexCount / GetTriangleCount nibble accessors
(modelled from the spec section 4.1: counts = (vertexCount << 4) OR triangleCount). -/
structure TransitionCellData where
  geometryCounts : ℕ

/-- GetVertexCount of TransitionCellData. -/
def TransitionCellData.vertexCount (d : TransitionCellData) : ℕ :=
  d.geometryCounts >>> 4

/-- GetTriangleCount of TransitionCellData. -/
def TransitionCellData.triangleCount (d : TransitionCellData) : ℕ :=
  d.geometryCounts &&& 15

/-- Transition-cell data additionally carries the triangle vertex-index list. -/
structure TransitionTables where
  cellClass : ℕ → ℕ
  cellData : ℕ → TransitionCellData
  cellVertexIndex : ℕ → ℕ → ℕ
  vertexData : ℕ → ℕ → ℕ
  cornerData : ℕ → ℕ

/-- L::dir_to_prev_vec: the displacement to the preceding cell encoded by the
low three bits of a reuse direction. -/
def dir_to_prev_vec (dir : ℕ) : Vec3i :=
  ⟨-((dir &&& 1 : ℕ) : ℤ), -(((dir >>> 1) &&& 1 : ℕ) : ℤ), -(((dir >>> 2) &&& 1 : ℕ) : ℤ)⟩

/-- Corner offsets of a regular cell (corner_positions[0..7] relative to pos). -/
def corner_offset : ℕ → Vec3i
  | 0 => ⟨0, 0, 0⟩
  | 1 => ⟨1, 0, 0⟩
  | 2 => ⟨0, 1, 0⟩
  | 3 => ⟨1, 1, 0⟩
  | 4 => ⟨0, 0, 1⟩
  | 5 => ⟨1, 0, 1⟩
  | 6 => ⟨0, 1, 1⟩
  | 7 => ⟨1, 1, 1⟩
  | _ => ⟨0, 0, 0⟩

/-- The signed sample of corner i of the cell at pos. -/
def regular_sample (vb : VoxelBuffer) (pos : Vec3i) (i : ℕ) : ℤ :=
  tos (get_voxel vb (pos + corner_offset i))

/-- The 8-bit case code of a regular cell, corner 0 at the least significant bit. -/
def regular_case_code (vb : VoxelBuffer) (pos : Vec3i) : ℕ :=
  sign (regular_sample vb pos 0) |||
  (sign (regular_sample vb pos 1) <<< 1) |||
  (sign (regular_sample vb pos 2) <<< 2) |||
  (sign (regular_sample vb pos 3) <<< 3) |||
  (sign (regular_sample vb pos 4) <<< 4) |||
  (sign (regular_sample vb pos 5) <<< 5) |||
  (sign (regular_sample vb pos 6) <<< 6) |||
  (sign (regular_sample vb pos 7) <<< 7)

/-- The central-difference gradient at p, components tof(s[-axis]) - tof(s[+axis]). -/
def corner_gradient (vb : VoxelBuffer) (p : Vec3i) : Vec3 :=
  ⟨tof (tos (get_voxel vb ⟨p.x - 1, p.y, p.z⟩)) - tof (tos (get_voxel vb ⟨p.x + 1, p.y, p.z⟩)),
   tof (tos (get_voxel vb ⟨p.x, p.y - 1, p.z⟩)) - tof (tos (get_voxel vb ⟨p.x, p.y + 1, p.z⟩)),
   tof (tos (get_voxel vb ⟨p.x, p.y, p.z - 1⟩)) - tof (tos (get_voxel vb ⟨p.x, p.y, p.z + 1⟩))⟩

/-- The per-cell inputs of the regular vertex loop. -/
structure RegularCellParams where
  pos : Vec3i
  caseCode : ℕ
  validityMask : ℕ
  cellBorderMask : ℕ
  bsNoPad : Vec3i
  minPos : Vec3i
  maxPos : Vec3i
  texIdx : ℚ
  cornerPositions : ℕ → Vec3i
  cellSamples : ℕ → ℤ
  cornerGradients : ℕ → Vec3

/-- The new-vertex tail of the inside-the-edge branch (source lines 441-471):
interpolated primary and normal, border mask and secondary on the border, the
vertex emission with its extra attribute, and the conditional cache store. -/
def regular_emit_interior (sq : ℚ → ℚ) (P : RegularCellParams)
    (reuse_dir reuse_vertex_index v0 v1 : ℕ) (t0 t1 : ℚ)
    (cvi : List ℤ) (i : ℕ) (s : MesherState) : List ℤ × MesherState :=
  let p0 := P.cornerPositions v0
  let p1 := P.cornerPositions v1
  let primary := t0 • p0.toVec3 + t1 • p1.toVec3
  let normal := normalized_not_null sq (t0 • P.cornerGradients v0 + t1 • P.cornerGradients v1)
  let bm_sec : ℕ × Vec3 :=
    if 0 < P.cellBorderMask then
      (P.cellBorderMask |||
         ((get_border_mask p0 P.minPos P.maxPos &&& get_border_mask p1 P.minPos P.maxPos) <<< 6),
       get_secondary_position primary normal 0 P.bsNoPad P.minPos)
    else (P.cellBorderMask, 0)
  let vi := s.vertices.length
  let s1 := push_extra (emit_vertex s primary normal) P.texIdx bm_sec.1
  let s2 := if reuse_dir &&& 8 ≠ 0 then set_reuse_slot s1 P.pos reuse_vertex_index (vi : ℤ) else s1
  (cvi.set i (vi : ℤ), s2)

/-- The new-vertex tail of the max-corner branch (source lines 474-494): the
vertex at p1, its emission, and the unconditional store into slot 0. -/
def regular_emit_corner7 (sq : ℚ → ℚ) (P : RegularCellParams) (v1 : ℕ)
    (cvi : List ℤ) (i : ℕ) (s : MesherState) : List ℤ × MesherState :=
  let p1 := P.cornerPositions v1
  let primary := p1.toVec3
  let normal := normalized_not_null sq (P.cornerGradients v1)
  let bm_sec : ℕ × Vec3 :=
    if 0 < P.cellBorderMask then
      (P.cellBorderMask ||| (get_border_mask p1 P.minPos P.maxPos <<< 6),
       get_secondary_position primary normal 0 P.bsNoPad P.minPos)
    else (P.cellBorderMask, 0)
  let vi := s.vertices.length
  let s1 := push_extra (emit_vertex s primary normal) P.texIdx bm_sec.1
  let s2 := set_reuse_slot s1 P.pos 0 (vi : ℤ)
  (cvi.set i (vi : ℤ), s2)

/-- The new-vertex tail of the on-an-endpoint branch (source lines 514-532):
the (degenerate) interpolation, emission, no cache store. -/
def regular_emit_endpoint (sq : ℚ → ℚ) (P : RegularCellParams) (v0 v1 : ℕ)
    (t : ℤ) (t0 t1 : ℚ) (cvi : List ℤ) (i : ℕ) (s : MesherState) : List ℤ × MesherState :=
  let p0 := P.cornerPositions v0
  let p1 := P.cornerPositions v1
  let primary := t0 • p0.toVec3 + t1 • p1.toVec3
  let normal := normalized_not_null sq (t0 • P.cornerGradients v0 + t1 • P.cornerGradients v1)
  let bm_sec : ℕ × Vec3 :=
    if 0 < P.cellBorderMask then
      (P.cellBorderMask |||
         (get_border_mask (if t = 0 then p1 else p0) P.minPos P.maxPos <<< 6),
       get_secondary_position primary normal 0 P.bsNoPad P.minPos)
    else (P.cellBorderMask, 0)
  let vi := s.vertices.length
  let s1 := push_extra (emit_vertex s primary normal) P.texIdx bm_sec.1
  (cvi.set i (vi : ℤ), s1)

/-- Body of the regular vertex loop for vertex i (source lines 381-535): the
three branches (inside the edge / max corner / other endpoint), the reuse-cache
lookups and stores, and the ERR_FAIL_COND early returns (the error case). -/
def process_regular_vertex (T : RegularTables) (sq : ℚ → ℚ) (P : RegularCellParams)
    (i : ℕ) (cvi : List ℤ) (s : MesherState) : Except MesherState (List ℤ × MesherState) :=
  let rvd := T.vertexData P.caseCode i
  let edge_code_low := rvd &&& 255
  let edge_code_high := (rvd >>> 8) &&& 255
  let v0 := (edge_code_low >>> 4) &&& 15
  let v1 := edge_code_low &&& 15
  if v1 ≤ v0 then .error s
  else
    let sample0 := P.cellSamples v0
    let sample1 := P.cellSamples v1
    if sample1 = sample0 then .error s
    else if sample1 = 0 ∧ sample0 = 0 then .error s
    else
      let t : ℤ := Int.tdiv (sample1 * 256) (sample1 - sample0)
      let t0 : ℚ := (t : ℚ) / 256
      let t1 : ℚ := ((256 : ℚ) - (t : ℚ)) / 256
      if t.emod 256 ≠ 0 then
        -- Vertex is inside the edge
        let reuse_dir := (edge_code_high >>> 4) &&& 15
        let reuse_vertex_index := edge_code_high &&& 15
        let cached : ℤ :=
          if (reuse_dir &&& P.validityMask) = reuse_dir then
            (get_reuse_cell s (P.pos + dir_to_prev_vec reuse_dir)).getD reuse_vertex_index (-1)
          else -1
        if (reuse_dir &&& P.validityMask) = reuse_dir ∧ cached ≠ -1 then
          .ok (cvi.set i cached, s)
        else
          .ok (regular_emit_interior sq P reuse_dir reuse_vertex_index v0 v1 t0 t1 cvi i s)
      else if t = 0 ∧ v1 = 7 then
        -- This cell owns the max corner vertex
        .ok (regular_emit_corner7 sq P v1 cvi i s)
      else
        -- Vertex on an endpoint: reuse via the inverted corner index
        let reuse_dir := if t = 0 then v1 ^^^ 7 else v0 ^^^ 7
        let cached : ℤ :=
          if (reuse_dir &&& P.validityMask) = reuse_dir then
            (get_reuse_cell s (P.pos + dir_to_prev_vec reuse_dir)).getD 0 (-1)
          else -1
        if (reuse_dir &&& P.validityMask) = reuse_dir ∧ ¬cached < 0 then
          .ok (cvi.set i cached, s)
        else
          .ok (regular_emit_endpoint sq P v0 v1 t t0 t1 cvi i s)

/-- The regular vertex loop over a list of vertex positions in the case. -/
def process_cell_vertices (T : RegularTables) (sq : ℚ → ℚ) (P : RegularCellParams) :
    List ℕ → List ℤ → MesherState → Except MesherState (List ℤ × MesherState)
  | [], cvi, s => .ok (cvi, s)
  | i :: rest, cvi, s =>
    match process_regular_vertex T sq P i cvi s with
    | .error s1 => .error s1
    | .ok (cvi1, s1) => process_cell_vertices T sq P rest cvi1 s1

/-- The three indices pushed per triangle, in source order, for all triangles. -/
def triangle_index_list (cvi : List ℤ) (vertexIndex : ℕ → ℕ) (triangle_count : ℕ) : List ℤ :=
  (List.range triangle_count).flatMap fun t =>
    [cvi.getD (vertexIndex (t * 3)) (-1),
     cvi.getD (vertexIndex (t * 3 + 1)) (-1),
     cvi.getD (vertexIndex (t * 3 + 2)) (-1)]

/-- One regular cell of the sweep (the body of the x/y/z loops of build_internal). -/
def process_regular_cell (T : RegularTables) (sq : ℚ → ℚ) (vb : VoxelBuffer)
    (pos : Vec3i) (s : MesherState) : Except MesherState MesherState :=
  let block_size := vb.sizeV
  let min_pos : Vec3i := ⟨MIN_PADDING, MIN_PADDING, MIN_PADDING⟩
  let max_pos : Vec3i := block_size - ⟨MAX_PADDING, MAX_PADDING, MAX_PADDING⟩
  let max_pos_c : Vec3i := max_pos - ⟨1, 1, 1⟩
  let case_code := regular_case_code vb pos
  let s := set_reuse_slot s pos 0 (-1)
  if case_code = 0 ∨ case_code = 255 then .ok s
  else
    let P : RegularCellParams :=
      { pos := pos
        caseCode := case_code
        validityMask :=
          (if min_pos.x < pos.x then 1 else 0) |||
          ((if min_pos.y < pos.y then 1 else 0) <<< 1) |||
          ((if min_pos.z < pos.z then 1 else 0) <<< 2)
        cellBorderMask := get_border_mask pos min_pos max_pos_c
        bsNoPad := block_size - ⟨3 * MIN_PADDING, 3 * MIN_PADDING, 3 * MIN_PADDING⟩
        minPos := min_pos
        maxPos := max_pos
        texIdx := ((vb.data2 pos % 256 : ℕ) : ℚ)
        cornerPositions := fun i => pos + corner_offset i
        cellSamples := fun i => regular_sample vb pos i
        cornerGradients := fun i => corner_gradient vb (pos + corner_offset i) }
    let data := T.cellData (T.cellClass case_code)
    let triangle_count := data.geometryCounts &&& 15
    let vertex_count := (data.geometryCounts &&& 240) >>> 4
    match process_cell_vertices T sq P (List.range vertex_count) (List.replicate 12 (-1)) s with
    | .error s1 => .error s1
    | .ok (cvi, s1) => .ok (push_indices s1 (triangle_index_list cvi data.vertexIndex triangle_count))

/-- The cell sweep: processes cells in order; an error (an ERR_FAIL_COND return)
stops the whole sweep with the state at that moment. -/
def sweep_regular_cells (T : RegularTables) (sq : ℚ → ℚ) (vb : VoxelBuffer) :
    List Vec3i → MesherState → MesherState
  | [], s => s
  | p :: ps, s =>
    match process_regular_cell T sq vb p s with
    | .ok s1 => sweep_regular_cells T sq vb ps s1
    | .error s1 => s1

/-- The half-open integer range [a, b) as a list. -/
def int_range (a b : ℤ) : List ℤ :=
  (List.range (b - a).toNat).map fun k => a + (k : ℤ)

/-- All cell positions of the regular sweep, z outer, then y, then x. -/
def cell_positions_list (min_pos max_pos : Vec3i) : List Vec3i :=
  (int_range min_pos.z max_pos.z).flatMap fun z =>
    (int_range min_pos.y max_pos.y).flatMap fun y =>
      (int_range min_pos.x max_pos.x).map fun x => ⟨x, y, z⟩

/-- build_internal: the regular-pass polygonizer. Uniform blocks return at once;
otherwise the reuse cache is reset and all cells in [min_pos, max_pos) are swept. -/
def build_internal (T : RegularTables) (sq : ℚ → ℚ) (vb : VoxelBuffer)
    (s : MesherState) : MesherState :=
  if vb.uniform then s
  else
    let block_size := vb.sizeV
    let min_pos : Vec3i := ⟨MIN_PADDING, MIN_PADDING, MIN_PADDING⟩
    let max_pos : Vec3i := block_size - ⟨MAX_PADDING, MAX_PADDING, MAX_PADDING⟩
    sweep_regular_cells T sq vb (cell_positions_list min_pos max_pos) (reset_reuse_cells block_size s)

/-- The six face directions (Cube::Side values used by the switch statements). -/
inductive Side
  | negX | posX | negY | posY | negZ | posZ
deriving DecidableEq

/-- All six sides in the order of the direction loop of build. -/
def all_sides : List Side :=
  [Side.negX, Side.posX, Side.negY, Side.posY, Side.negZ, Side.posZ]

/-- L::face_to_block: converts face-space coordinates to block space per direction. -/
def face_to_block (x y z : ℤ) (dir : Side) (bs : Vec3i) : Vec3i :=
  match dir with
  | .negX => ⟨z, x, y⟩
  | .posX => ⟨bs.x - 1 - z, y, x⟩
  | .negY => ⟨y, z, x⟩
  | .posY => ⟨x, bs.y - 1 - z, y⟩
  | .negZ => ⟨x, y, z⟩
  | .posZ => ⟨y, x, bs.z - 1 - z⟩

/-- L::get_face_axes: the block axes mapped to face-space x and y per direction. -/
def face_axes (dir : Side) : ℕ × ℕ :=
  match dir with
  | .negX => (1, 2)
  | .posX => (2, 1)
  | .negY => (2, 0)
  | .posY => (0, 2)
  | .negZ => (0, 1)
  | .posZ => (1, 0)

/-- Index aliasing of the 13 transition samples: positions 9..C alias the face
corners 0, 2, 6, 8. -/
def transition_alias (i : ℕ) : ℕ :=
  if i = 9 then 0 else if i = 10 then 2 else if i = 11 then 6 else if i = 12 then 8 else i

/-- Face-space offsets of the nine full-resolution sample positions
(arranged 6 7 8 / 3 4 5 / 0 1 2). -/
def transition_offset : ℕ → ℤ × ℤ
  | 0 => (0, 0)
  | 1 => (1, 0)
  | 2 => (2, 0)
  | 3 => (0, 1)
  | 4 => (1, 1)
  | 5 => (2, 1)
  | 6 => (0, 2)
  | 7 => (1, 2)
  | 8 => (2, 2)
  | _ => (0, 0)

/-- cell_positions[i] of a transition cell at face position (fx, fy), fz = MIN_PADDING. -/
def tcell_position (dir : Side) (bs : Vec3i) (fx fy : ℤ) (i : ℕ) : Vec3i :=
  let o := transition_offset (transition_alias i)
  face_to_block (fx + o.1) (fy + o.2) MIN_PADDING dir bs

/-- cell_samples[i] of a transition cell (9..C alias 0, 2, 6, 8). -/
def tcell_sample (vb : VoxelBuffer) (dir : Side) (fx fy : ℤ) (i : ℕ) : ℤ :=
  tos (get_voxel vb (tcell_position dir vb.sizeV fx fy i))

/-- cell_gradients[i] of a transition cell. -/
def tcell_gradient (vb : VoxelBuffer) (dir : Side) (fx fy : ℤ) (i : ℕ) : Vec3 :=
  corner_gradient vb (tcell_position dir vb.sizeV fx fy i)

/-- The 9-bit transition case code, sample order 0,1,2,5,8,7,6,3,4 from LSB up. -/
def transition_case_code (vb : VoxelBuffer) (dir : Side) (fx fy : ℤ) : ℕ :=
  sign (tcell_sample vb dir fx fy 0) |||
  (sign (tcell_sample vb dir fx fy 1) <<< 1) |||
  (sign (tcell_sample vb dir fx fy 2) <<< 2) |||
  (sign (tcell_sample vb dir fx fy 5) <<< 3) |||
  (sign (tcell_sample vb dir fx fy 8) <<< 4) |||
  (sign (tcell_sample vb dir fx fy 7) <<< 5) |||
  (sign (tcell_sample vb dir fx fy 6) <<< 6) |||
  (sign (tcell_sample vb dir fx fy 3) <<< 7) |||
  (sign (tcell_sample vb dir fx fy 4) <<< 8)

/-- The border mask and secondary position given to a newly created transition
vertex lying inside an edge with endpoint indices ia, ib at integer positions
pa, pb (source lines 867-881): the full-resolution side gets the secondary
position and the endpoint-AND mask bits; the half-resolution side gets mask 0
and keeps the default (zero) secondary position. -/
def transition_vertex_border (bsNoPad min_pos max_pos : Vec3i)
    (cell_border_mask : ℕ) (primary normal : Vec3) (ia ib : ℕ) (pa pb : Vec3i) : ℕ × Vec3 :=
  if ia < 9 ∨ ib < 9 then
    (cell_border_mask |||
       ((get_border_mask pa min_pos max_pos &&& get_border_mask pb min_pos max_pos) <<< 6),
     get_secondary_position primary normal 0 bsNoPad min_pos)
  else (0, 0)

/-- Same for a vertex landing exactly on the endpoint with index iv at position
pv (source lines 921-932): full-resolution endpoints get the secondary position
and mask, half-resolution endpoints get mask 0 and no secondary offset. -/
def transition_corner_border (bsNoPad min_pos max_pos : Vec3i)
    (cell_border_mask : ℕ) (primary normal : Vec3) (iv : ℕ) (pv : Vec3i) : ℕ × Vec3 :=
  if iv < 9 then
    (cell_border_mask ||| (get_border_mask pv min_pos max_pos <<< 6),
     get_secondary_position primary normal 0 bsNoPad min_pos)
  else (0, 0)

/-- The per-cell inputs of the transition vertex loop. -/
structure TransitionCellParams where
  fx : ℤ
  fy : ℤ
  caseCode : ℕ
  validityMask : ℕ
  cellBorderMask : ℕ
  bsNoPad : Vec3i
  minPos : Vec3i
  maxPos : Vec3i
  texIdx : ℚ
  positions : ℕ → Vec3i
  samples : ℕ → ℤ
  gradients : ℕ → Vec3

/-- The new-vertex tail of the inside-the-edge transition branch (source lines
856-891): interpolation, the full/half-resolution border asymmetry, emission,
and the conditional 2D cache store. -/
def transition_emit_interior (sq : ℚ → ℚ) (P : TransitionCellParams)
    (reuse_direction vertex_index_to_reuse_or_create index_vertex_a index_vertex_b : ℕ)
    (t0 t1 : ℚ) (cvi : List ℤ) (i : ℕ) (s : MesherState) : List ℤ × MesherState :=
  let p0 := (P.positions index_vertex_a).toVec3
  let p1 := (P.positions index_vertex_b).toVec3
  let primary := t0 • p0 + t1 • p1
  let normal := normalized_not_null sq
    (t0 • P.gradients index_vertex_a + t1 • P.gradients index_vertex_b)
  let bm_sec := transition_vertex_border P.bsNoPad P.minPos P.maxPos P.cellBorderMask
    primary normal index_vertex_a index_vertex_b
    (P.positions index_vertex_a) (P.positions index_vertex_b)
  let vi := s.vertices.length
  let s1 := push_extra (emit_vertex s primary normal) P.texIdx bm_sec.1
  let s2 :=
    if reuse_direction &&& 8 ≠ 0 then
      set_reuse_slot_2d s1 P.fx P.fy vertex_index_to_reuse_or_create (vi : ℤ)
    else s1
  (cvi.set i (vi : ℤ), s2)

/-- The new-vertex tail of the on-an-endpoint transition branch (source lines
915-941): the corner vertex, the asymmetry, emission, unconditional store. -/
def transition_emit_corner (sq : ℚ → ℚ) (P : TransitionCellParams)
    (vertex_index_to_reuse_or_create index_vertex : ℕ)
    (cvi : List ℤ) (i : ℕ) (s : MesherState) : List ℤ × MesherState :=
  let primary := (P.positions index_vertex).toVec3
  let normal := normalized_not_null sq (P.gradients index_vertex)
  let bm_sec := transition_corner_border P.bsNoPad P.minPos P.maxPos P.cellBorderMask
    primary normal index_vertex (P.positions index_vertex)
  let vi := s.vertices.length
  let s1 := push_extra (emit_vertex s primary normal) P.texIdx bm_sec.1
  let s2 := set_reuse_slot_2d s1 P.fx P.fy vertex_index_to_reuse_or_create (vi : ℤ)
  (cvi.set i (vi : ℤ), s2)

/-- Body of the transition vertex loop for vertex i (source lines 809-944). -/
def process_transition_vertex (TT : TransitionTables) (sq : ℚ → ℚ) (P : TransitionCellParams)
    (i : ℕ) (cvi : List ℤ) (s : MesherState) : Except MesherState (List ℤ × MesherState) :=
  let edge_code := TT.vertexData P.caseCode i
  let index_vertex_a := (edge_code >>> 4) &&& 15
  let index_vertex_b := edge_code &&& 15
  let sample_a := P.samples index_vertex_a
  let sample_b := P.samples index_vertex_b
  if sample_a = sample_b then .error s
  else if sample_a = 0 ∧ sample_b = 0 then .error s
  else
    let t : ℤ := Int.tdiv (sample_b * 256) (sample_b - sample_a)
    let t0 : ℚ := (t : ℚ) / 256
    let t1 : ℚ := ((256 : ℚ) - (t : ℚ)) / 256
    if t.emod 256 ≠ 0 then
      -- Vertex lies inside the edge
      let vertex_index_to_reuse_or_create := (edge_code >>> 8) &&& 15
      let reuse_direction := edge_code >>> 12
      let cached : ℤ :=
        if (reuse_direction &&& P.validityMask) = reuse_direction then
          (get_reuse_cell_2d s (P.fx - ((reuse_direction &&& 1 : ℕ) : ℤ))
              (P.fy - (((reuse_direction >>> 1) &&& 1 : ℕ) : ℤ))).getD
            vertex_index_to_reuse_or_create (-1)
        else -1
      if (reuse_direction &&& P.validityMask) = reuse_direction ∧ cached ≠ -1 then
        .ok (cvi.set i cached, s)
      else
        .ok (transition_emit_interior sq P reuse_direction vertex_index_to_reuse_or_create
          index_vertex_a index_vertex_b t0 t1 cvi i s)
    else
      -- Vertex exactly on an endpoint: corner reuse via transition_corner_data
      let index_vertex := if t = 0 then index_vertex_b else index_vertex_a
      let corner_data := TT.cornerData index_vertex
      let vertex_index_to_reuse_or_create := corner_data &&& 15
      let reuse_direction := (corner_data >>> 4) &&& 15
      let cached : ℤ :=
        if (reuse_direction &&& P.validityMask) = reuse_direction then
          (get_reuse_cell_2d s (P.fx - ((reuse_direction &&& 1 : ℕ) : ℤ))
              (P.fy - (((reuse_direction >>> 1) &&& 1 : ℕ) : ℤ))).getD
            vertex_index_to_reuse_or_create (-1)
        else -1
      if (reuse_direction &&& P.validityMask) = reuse_direction ∧ cached ≠ -1 then
        .ok (cvi.set i cached, s)
      else
        .ok (transition_emit_corner sq P vertex_index_to_reuse_or_create index_vertex cvi i s)

/-- The transition vertex loop over a list of vertex positions in the case. -/
def process_tcell_vertices (TT : TransitionTables) (sq : ℚ → ℚ) (P : TransitionCellParams) :
    List ℕ → List ℤ → MesherState → Except MesherState (List ℤ × MesherState)
  | [], cvi, s => .ok (cvi, s)
  | i :: rest, cvi, s =>
    match process_transition_vertex TT sq P i cvi s with
    | .error s1 => .error s1
    | .ok (cvi1, s1) => process_tcell_vertices TT sq P rest cvi1 s1

/-- The indices pushed per transition triangle: source order when the class flip
bit is set, reversed otherwise. -/
def transition_triangle_index_list (cvi : List ℤ) (vertexIndex : ℕ → ℕ)
    (triangle_count : ℕ) (flip_triangles : Bool) : List ℤ :=
  (List.range triangle_count).flatMap fun ti =>
    if flip_triangles then
      [cvi.getD (vertexIndex (ti * 3)) (-1),
       cvi.getD (vertexIndex (ti * 3 + 1)) (-1),
       cvi.getD (vertexIndex (ti * 3 + 2)) (-1)]
    else
      [cvi.getD (vertexIndex (ti * 3 + 2)) (-1),
       cvi.getD (vertexIndex (ti * 3 + 1)) (-1),
       cvi.getD (vertexIndex (ti * 3)) (-1)]

/-- One transition cell of the sweep (the body of the fx/fy loops of build_transition). -/
def process_transition_cell (TT : TransitionTables) (sq : ℚ → ℚ) (vb : VoxelBuffer)
    (dir : Side) (fx fy : ℤ) (s : MesherState) : Except MesherState MesherState :=
  let block_size := vb.sizeV
  let min_pos : Vec3i := ⟨MIN_PADDING, MIN_PADDING, MIN_PADDING⟩
  let max_pos : Vec3i := block_size - ⟨MAX_PADDING, MAX_PADDING, MAX_PADDING⟩
  let case_code := transition_case_code vb dir fx fy
  let s := set_reuse_slot_2d s fx fy 0 (-1)
  if case_code = 0 ∨ case_code = 511 then .ok s
  else
    let cell_class := TT.cellClass case_code
    let data := TT.cellData (cell_class &&& 127)
    let flip_triangles := cell_class &&& 128 ≠ 0
    let P : TransitionCellParams :=
      { fx := fx
        fy := fy
        caseCode := case_code
        validityMask :=
          (if MIN_PADDING < fx then 1 else 0) ||| ((if MIN_PADDING < fy then 1 else 0) <<< 1)
        cellBorderMask := get_border_mask (tcell_position dir block_size fx fy 0) min_pos max_pos
        bsNoPad := block_size - ⟨MIN_PADDING + MAX_PADDING, MIN_PADDING + MAX_PADDING, MIN_PADDING + MAX_PADDING⟩
        minPos := min_pos
        maxPos := max_pos
        texIdx := ((vb.data2 (tcell_position dir block_size fx fy 0) % 256 : ℕ) : ℚ)
        positions := fun i => tcell_position dir block_size fx fy i
        samples := fun i => tcell_sample vb dir fx fy i
        gradients := fun i => tcell_gradient vb dir fx fy i }
    match process_tcell_vertices TT sq P (List.range data.vertexCount) (List.replicate 12 (-1)) s with
    | .error s1 => .error s1
    | .ok (cvi, s1) =>
      .ok (push_indices s1
        (transition_triangle_index_list cvi (TT.cellVertexIndex (cell_class &&& 127))
          data.triangleCount (decide flip_triangles)))

/-- The transition cell sweep; an error stops the whole sweep. -/
def sweep_transition_cells (TT : TransitionTables) (sq : ℚ → ℚ) (vb : VoxelBuffer) (dir : Side) :
    List (ℤ × ℤ) → MesherState → MesherState
  | [], s => s
  | p :: ps, s =>
    match process_transition_cell TT sq vb dir p.1 p.2 s with
    | .ok s1 => sweep_transition_cells TT sq vb dir ps s1
    | .error s1 => s1

/-- The face-space positions visited by a loop from a to b (exclusive) in steps of 2. -/
def step2_range (a b : ℤ) : List ℤ :=
  (List.range (((b - a).toNat + 1) / 2)).map fun k => a + 2 * (k : ℤ)

/-- All (fx, fy) cell positions of the transition sweep, fy outer. -/
def tcell_positions_list (min_fx max_fx min_fy max_fy : ℤ) : List (ℤ × ℤ) :=
  (step2_range min_fy max_fy).flatMap fun fy =>
    (step2_range min_fx max_fx).map fun fx => (fx, fy)

/-- build_transition: the transition-pass polygonizer for one face direction.
Uniform blocks and blocks smaller than 3 on any axis return at once; otherwise
the 2D reuse cache is reset and the face cells are swept in steps of two. -/
def build_transition (TT : TransitionTables) (sq : ℚ → ℚ) (vb : VoxelBuffer)
    (dir : Side) (s : MesherState) : MesherState :=
  if vb.uniform then s
  else if vb.sizeV.x < 3 ∨ vb.sizeV.y < 3 ∨ vb.sizeV.z < 3 then s
  else
    let block_size := vb.sizeV
    let min_pos : Vec3i := ⟨MIN_PADDING, MIN_PADDING, MIN_PADDING⟩
    let max_pos : Vec3i := block_size - ⟨MAX_PADDING, MAX_PADDING, MAX_PADDING⟩
    let ax := (face_axes dir).1
    let ay := (face_axes dir).2
    let min_fpos_x := min_pos.axis ax
    let min_fpos_y := min_pos.axis ay
    let max_fpos_x := max_pos.axis ax - 1
    let max_fpos_y := max_pos.axis ay - 1
    sweep_transition_cells TT sq vb dir
      (tcell_positions_list min_fpos_x max_fpos_x min_fpos_y max_fpos_y)
      (reset_reuse_cells_2d block_size s)

/-- One output surface, as read back by fill_surface_arrays. -/
structure Surface where
  vertices : List Vec3
  normals : List Vec3
  extra : List Color
  indices : List ℤ

/-- fill_surface_arrays: copies the current output buffers into a surface. -/
def fill_surface_arrays (s : MesherState) : Surface :=
  ⟨s.vertices, s.normals, s.extra, s.indices⟩

/-- The combined output of build: the regular surface list and, per direction,
the transition surface list. -/
structure BuildOutput where
  surfaces : List Surface
  transitionSurfaces : Side → List Surface

/-- The body of the transition direction loop of build for one direction:
clear, build, skip when empty, else scale by 1 << lod and push the surface. -/
def build_dir_step (TT : TransitionTables) (sq : ℚ → ℚ) (vb : VoxelBuffer) (lod : ℕ)
    (acc : (Side → List Surface) × MesherState) (dir : Side) :
    (Side → List Surface) × MesherState :=
  let s1 := build_transition TT sq vb dir (clear_output acc.2)
  if s1.vertices.length = 0 then (acc.1, s1)
  else
    let s2 := if 0 < lod then scale_output ((1 <<< lod : ℕ) : ℚ) s1 else s1
    (fun d => if d = dir then acc.1 d ++ [fill_surface_arrays s2] else acc.1 d, s2)

/-- build: clears the output, runs the regular pass, and returns at once when it
produced no vertex; otherwise scales by 1 << lod when lod > 0, stores the regular
surface, and runs the six transition passes the same way. -/
def build (T : RegularTables) (TT : TransitionTables) (sq : ℚ → ℚ) (vb : VoxelBuffer)
    (lod : ℕ) (s : MesherState) : BuildOutput :=
  let s1 := build_internal T sq vb (clear_output s)
  if s1.vertices.length = 0 then ⟨[], fun _ => []⟩
  else
    let s2 := if 0 < lod then scale_output ((1 <<< lod : ℕ) : ℚ) s1 else s1
    let regular := fill_surface_arrays s2
    let trans := all_sides.foldl (build_dir_step TT sq vb lod) (fun _ => [], s2)
    ⟨[regular], trans.1⟩

/-- An index value is a valid reference into a vertex buffer of given length. -/
def idx_ok (len : ℕ) (v : ℤ) : Prop := 0 ≤ v ∧ v < (len : ℤ)

/-- Every entry of a reuse slot is -1 or a valid vertex index. -/
def slot_ok (len : ℕ) (c : List ℤ) : Prop := ∀ v ∈ c, v = -1 ∨ idx_ok len v

/-- Every slot of a cache deck is well formed. -/
def deck_ok (len : ℕ) (deck : List (List ℤ)) : Prop := ∀ c ∈ deck, slot_ok len c

/-- The regular-sweep invariant: the 3D cache holds only -1 or valid vertex
indices, and every index already in the output buffer is valid. -/
def state_ok_r (s : MesherState) : Prop :=
  deck_ok s.vertices.length s.cache.1 ∧ deck_ok s.vertices.length s.cache.2 ∧
  ∀ v ∈ s.indices, idx_ok s.vertices.length v

/-- The transition-sweep invariant: the 2D cache holds only -1 or valid vertex
indices, and every index already in the output buffer is valid. -/
def state_ok_t (s : MesherState) : Prop :=
  deck_ok s.vertices.length s.cache2.1 ∧ deck_ok s.vertices.length s.cache2.2 ∧
  ∀ v ∈ s.indices, idx_ok s.vertices.length v

/-- The partial cell_vertex_indices invariant during the vertex loop: every
vertex position below the vertex count that is not still pending in the loop
already holds a valid vertex index. -/
def cvi_ok (len : ℕ) (vertex_count : ℕ) (pending : List ℕ) (cvi : List ℤ) : Prop :=
  ∀ k, k < vertex_count → k ∈ pending ∨ idx_ok len (cvi.getD k (-1))

/-- Well-formedness of the regular tables (facts of Lengyel's published tables,
which are not part of the sources): per class at most 12 vertices and triangle
list entries below the class vertex count. -/
def regular_tables_ok (T : RegularTables) : Prop :=
  ∀ cls, ((T.cellData cls).geometryCounts &&& 240) >>> 4 ≤ 12 ∧
    ∀ k, (T.cellData cls).vertexIndex k < ((T.cellData cls).geometryCounts &&& 240) >>> 4

/-- Well-formedness of the transition tables: per class at most 12 vertices and
triangle list entries below the class vertex count. -/
def transition_tables_ok (TT : TransitionTables) : Prop :=
  ∀ cls, (TT.cellData cls).vertexCount ≤ 12 ∧
    ∀ k, TT.cellVertexIndex cls k < (TT.cellData cls).vertexCount

/-- Extracts the state from a sweep step result, whichever way it ended. -/
def except_result : Except MesherState MesherState → MesherState
  | .ok s => s
  | .error s => s

/-- Whether a sweep step ended normally (true) or through an ERR_FAIL_COND
early return (false). -/
def except_is_ok : Except MesherState MesherState → Bool
  | .ok _ => true
  | .error _ => false

/-- A concrete stand-in for the square root primitive, for witnesses whose
outcome does not depend on its values. -/
def sq_id : ℚ → ℚ := fun q => q

/-- The mesher state before any build: empty buffers, empty caches. -/
def s_init : MesherState :=
  ⟨[], [], [], [], ([], []), ([], []), ⟨0, 0, 0⟩⟩

/-- A concrete well-formed regular table assigning every case one vertex and no
triangle (a stand-in for witness evaluation). -/
def T_triv : RegularTables :=
  ⟨fun _ => 0, fun _ => ⟨16, fun _ => 0⟩, fun _ _ => 1⟩

/-- A concrete well-formed transition table counterpart. -/
def TT_triv : TransitionTables :=
  ⟨fun _ => 0, fun _ => ⟨16⟩, fun _ _ => 0, fun _ _ => 1, fun _ => 0⟩

/-- A concrete uniform 8x8x8 block. -/
def vb_uniform : VoxelBuffer :=
  ⟨⟨8, 8, 8⟩, fun _ => 0, fun _ => 0, true⟩

/-- A concrete non-uniform-flagged block whose samples are all raw 0 (signed
+127 everywhere, case code 0 in every cell). -/
def vb_air : VoxelBuffer :=
  ⟨⟨8, 8, 8⟩, fun _ => 0, fun _ => 0, false⟩

/-- A 5x4x4 block with exactly two solid voxels, at (1,1,1) and (3,1,1): the
sweep visits cells (1,1,1) (case code 1) then (2,1,1) (case code 2). -/
def vb_bad : VoxelBuffer :=
  ⟨⟨5, 4, 4⟩, fun p => if p = ⟨1, 1, 1⟩ ∨ p = ⟨3, 1, 1⟩ then 255 else 0, fun _ => 0, false⟩

/-- A hypothetical regular table whose case-1 vertex descriptor has v1 <= v0
(firing the ERR_FAIL_COND guard) while case 2 has a well-formed descriptor on
the corner-0/corner-1 edge. -/
def T_bad : RegularTables :=
  ⟨fun c => c, fun _ => ⟨16, fun _ => 0⟩, fun c _ => if c = 1 then 16 else 1⟩

/-- Whether a vertex-loop step ended normally. -/
def except_is_ok2 : Except MesherState (List ℤ × MesherState) → Bool
  | .ok _ => true
  | .error _ => false

/-- A concrete cell-parameter record for witness instantiations. -/
def P_w : RegularCellParams :=
  ⟨⟨1, 1, 1⟩, 1, 0, 0, ⟨2, 1, 1⟩, ⟨1, 1, 1⟩, ⟨3, 2, 2⟩, 0,
   fun _ => ⟨0, 0, 0⟩, fun _ => 0, fun _ => 0⟩

/-- The state carried by a vertex-loop step result, whichever way it ended. -/
def vertex_result_state : Except MesherState (List ℤ × MesherState) → MesherState
  | .ok p => p.2
  | .error s => s

/-! Theorems. First a few shared helper lemmas, then one theorem per claim
(with a witness or counterexample where required). -/

theorem Vec3.add_def (a b : Vec3) : a + b = ⟨a.x + b.x, a.y + b.y, a.z + b.z⟩ := rfl

theorem Vec3.sub_def (a b : Vec3) : a - b = ⟨a.x - b.x, a.y - b.y, a.z - b.z⟩ := rfl

theorem Vec3.smul_def (q : ℚ) (v : Vec3) : q • v = ⟨q * v.x, q * v.y, q * v.z⟩ := rfl

theorem nat_or_ne_zero_left (a b : ℕ) (h : a ≠ 0) : a ||| b ≠ 0 := by
  obtain ⟨i, hi⟩ := Nat.exists_most_significant_bit h
  intro hc
  have ht := Nat.testBit_lor a b i
  rw [hc, Nat.zero_testBit, hi.1] at ht
  simp at ht

theorem nat_or_ne_zero_right (a b : ℕ) (h : b ≠ 0) : a ||| b ≠ 0 := by
  obtain ⟨i, hi⟩ := Nat.exists_most_significant_bit h
  intro hc
  have ht := Nat.testBit_lor a b i
  rw [hc, Nat.zero_testBit, hi.1] at ht
  simp at ht

theorem border_offset_eq_spec (pos : Vec3) (lod : ℕ) (bs mp : Vec3i) :
    get_border_offset pos lod bs mp = spec_border_offset pos lod bs mp := by
  dsimp only [get_border_offset, spec_border_offset, border_offset_axis, TRANSITION_CELL_SCALE]
  simp only [Vec3.mk.injEq]
  refine ⟨?_, ?_, ?_⟩ <;> split_ifs <;> ring

theorem project_border_offset_eq (d n : Vec3) :
    project_border_offset d n = d - (Vec3.dot d n) • n := by
  simp only [project_border_offset, Vec3.dot, Vec3.sub_def, Vec3.smul_def, Vec3.mk.injEq]
  refine ⟨?_, ?_, ?_⟩ <;> ring

/-- C2: for lod = 0 the secondary position of a border vertex is
p + (Δ − (Δ·n)·n), where Δ is the piecewise per-axis offset of the spec
(with q = p[i] − min_pos[i], k = 2^lod, w = 0.25·k) and the projection is
performed by the explicit I − n·nᵀ matrix product of the source. -/
theorem C2_secondary_position_formula (primary normal : Vec3) (block_size min_pos : Vec3i) :
    get_secondary_position primary normal 0 block_size min_pos =
      primary +
        (spec_border_offset primary 0 block_size min_pos -
          (Vec3.dot (spec_border_offset primary 0 block_size min_pos) normal) • normal) := by
  rw [get_secondary_position, project_border_offset_eq, border_offset_eq_spec]

/-- C9: a vertex normal is the normalization of the interpolated gradient when
the gradient is nonzero (characterized exactly: it is (1/ℓ)·g for the square
root ℓ of the squared length, and its squared length is 1), and is exactly
(0,1,0) when the gradient has length zero. Exact-arithmetic idealization of
the float computation; the square root primitive sq is characterized by its
defining equation. -/
theorem C9_normals_unit_or_fallback (sq : ℚ → ℚ) (n : Vec3) :
    (n.lengthSq = 0 → normalized_not_null sq n = ⟨0, 1, 0⟩) ∧
    (n.lengthSq ≠ 0 → (sq n.lengthSq) ^ 2 = n.lengthSq →
      normalized_not_null sq n = (1 / sq n.lengthSq) • n ∧
      (normalized_not_null sq n).lengthSq = 1) := by
  constructor
  · intro h
    simp [normalized_not_null, h]
  · intro h hsq
    have hL : sq n.lengthSq ≠ 0 := by
      intro h0
      apply h
      rw [← hsq, h0]
      ring
    have hsq2 : sq n.lengthSq * sq n.lengthSq = n.x * n.x + n.y * n.y + n.z * n.z := by
      have h' := hsq
      rw [pow_two, Vec3.lengthSq] at h'
      exact h'
    have hnn : normalized_not_null sq n =
        ⟨n.x / sq n.lengthSq, n.y / sq n.lengthSq, n.z / sq n.lengthSq⟩ := by
      simp only [normalized_not_null, if_neg h]
    constructor
    · rw [hnn]
      simp only [Vec3.smul_def, Vec3.mk.injEq]
      refine ⟨?_, ?_, ?_⟩ <;> field_simp
    · rw [hnn, Vec3.lengthSq]
      have hdiv : (n.x / sq n.lengthSq) * (n.x / sq n.lengthSq) +
          (n.y / sq n.lengthSq) * (n.y / sq n.lengthSq) +
          (n.z / sq n.lengthSq) * (n.z / sq n.lengthSq) =
          (n.x * n.x + n.y * n.y + n.z * n.z) / (sq n.lengthSq * sq n.lengthSq) := by
        ring
      rw [hdiv, ← hsq2, div_self (mul_ne_zero hL hL)]

/-- Witness for C9 at the concrete gradients (3,4,0) (with sq 25 = 5) and (0,0,0). -/
theorem C9_normals_unit_or_fallback_witness :
    normalized_not_null (fun _ => 5) ⟨3, 4, 0⟩ = (1 / 5 : ℚ) • (⟨3, 4, 0⟩ : Vec3) ∧
    (normalized_not_null (fun _ => 5) ⟨3, 4, 0⟩).lengthSq = 1 ∧
    normalized_not_null (fun _ => 5) ⟨0, 0, 0⟩ = ⟨0, 1, 0⟩ := by
  have h1 := (C9_normals_unit_or_fallback (fun _ => 5) ⟨3, 4, 0⟩).2
    (by norm_num [Vec3.lengthSq]) (by norm_num [Vec3.lengthSq])
  have h2 := (C9_normals_unit_or_fallback (fun _ => 5) ⟨0, 0, 0⟩).1
    (by norm_num [Vec3.lengthSq])
  exact ⟨h1.1, h1.2, h2⟩

/-- C3: the regular-pass reuse cache addresses the deck by pos.z AND 1 and the
slot by the linear index pos.y * size.y + pos.x, with the y component of the
block size as the row stride; consequently any two positions on decks of equal
parity whose y*size.y+x indices agree read the very same slot. -/
theorem C3_regular_reuse_cache_addressing (s : MesherState) (pos : Vec3i) :
    get_reuse_cell s pos =
      (if pos.z.emod 2 = 1 then s.cache.2 else s.cache.1).getD
        (pos.y * s.blockSize.y + pos.x).toNat (List.replicate 4 (-1)) ∧
    ∀ q : Vec3i, pos.z.emod 2 = q.z.emod 2 →
      pos.y * s.blockSize.y + pos.x = q.y * s.blockSize.y + q.x →
      get_reuse_cell s pos = get_reuse_cell s q := by
  refine ⟨rfl, fun q h1 h2 => ?_⟩
  unfold get_reuse_cell
  rw [h1, h2]

/-- Witness for C3: with block size (4,5,4) the positions (5,0,0) and (0,1,0)
alias the same slot because the stride is size.y = 5. -/
theorem C3_regular_reuse_cache_addressing_witness :
    get_reuse_cell (reset_reuse_cells ⟨4, 5, 4⟩ s_init) ⟨5, 0, 0⟩ =
      get_reuse_cell (reset_reuse_cells ⟨4, 5, 4⟩ s_init) ⟨0, 1, 0⟩ :=
  (C3_regular_reuse_cache_addressing (reset_reuse_cells ⟨4, 5, 4⟩ s_init) ⟨5, 0, 0⟩).2
    ⟨0, 1, 0⟩ (by decide) (by decide)

/-- C5: a cell whose case code is 0 or the all-ones sentinel (255 regular, 511
transition) emits no vertex and no triangle and the sweep proceeds (the cell
step ends normally, with output buffers unchanged). -/
theorem C5_sentinel_case_codes_emit_nothing (T : RegularTables) (TT : TransitionTables)
    (sq : ℚ → ℚ) (vb : VoxelBuffer) (pos : Vec3i) (dir : Side) (fx fy : ℤ)
    (s s2 : MesherState)
    (hr : regular_case_code vb pos = 0 ∨ regular_case_code vb pos = 255)
    (ht : transition_case_code vb dir fx fy = 0 ∨ transition_case_code vb dir fx fy = 511) :
    (except_is_ok (process_regular_cell T sq vb pos s) = true ∧
     (except_result (process_regular_cell T sq vb pos s)).vertices = s.vertices ∧
     (except_result (process_regular_cell T sq vb pos s)).indices = s.indices) ∧
    (except_is_ok (process_transition_cell TT sq vb dir fx fy s2) = true ∧
     (except_result (process_transition_cell TT sq vb dir fx fy s2)).vertices = s2.vertices ∧
     (except_result (process_transition_cell TT sq vb dir fx fy s2)).indices = s2.indices) := by
  constructor
  · rcases hr with h | h <;>
      simp [process_regular_cell, h, set_reuse_slot, except_is_ok, except_result] <;>
      split_ifs <;> simp
  · rcases ht with h | h <;>
      simp [process_transition_cell, h, set_reuse_slot_2d, except_is_ok, except_result] <;>
      split_ifs <;> simp

/-- Witness for C5: the all-air block has case code 0 at cell (1,1,1) and at the
transition cell (1,1) of the -X face. -/
theorem C5_sentinel_case_codes_emit_nothing_witness :
    (except_is_ok (process_regular_cell T_triv sq_id vb_air ⟨1, 1, 1⟩ s_init) = true ∧
     (except_result (process_regular_cell T_triv sq_id vb_air ⟨1, 1, 1⟩ s_init)).vertices = s_init.vertices ∧
     (except_result (process_regular_cell T_triv sq_id vb_air ⟨1, 1, 1⟩ s_init)).indices = s_init.indices) ∧
    (except_is_ok (process_transition_cell TT_triv sq_id vb_air Side.negX 1 1 s_init) = true ∧
     (except_result (process_transition_cell TT_triv sq_id vb_air Side.negX 1 1 s_init)).vertices = s_init.vertices ∧
     (except_result (process_transition_cell TT_triv sq_id vb_air Side.negX 1 1 s_init)).indices = s_init.indices) :=
  C5_sentinel_case_codes_emit_nothing T_triv TT_triv sq_id vb_air ⟨1, 1, 1⟩ Side.negX 1 1
    s_init s_init (Or.inl (by decide)) (Or.inl (by decide))

/-- C6: a block whose uniform fast-path reports a constant yields an empty mesh
(no vertices, no indices) from both the regular and the transition pass, with
no error signalled (the pass returns normally at once). -/
theorem C6_uniform_block_empty_mesh (T : RegularTables) (TT : TransitionTables)
    (sq : ℚ → ℚ) (vb : VoxelBuffer) (dir : Side) (s : MesherState)
    (h : vb.uniform = true) :
    (build_internal T sq vb (clear_output s)).vertices = [] ∧
    (build_internal T sq vb (clear_output s)).indices = [] ∧
    (build_transition TT sq vb dir (clear_output s)).vertices = [] ∧
    (build_transition TT sq vb dir (clear_output s)).indices = [] := by
  simp [build_internal, build_transition, h, clear_output]

/-- Witness for C6 on the concrete uniform block. -/
theorem C6_uniform_block_empty_mesh_witness :
    (build_internal T_triv sq_id vb_uniform (clear_output s_init)).vertices = [] ∧
    (build_internal T_triv sq_id vb_uniform (clear_output s_init)).indices = [] ∧
    (build_transition TT_triv sq_id vb_uniform Side.posY (clear_output s_init)).vertices = [] ∧
    (build_transition TT_triv sq_id vb_uniform Side.posY (clear_output s_init)).indices = [] :=
  C6_uniform_block_empty_mesh T_triv TT_triv sq_id vb_uniform Side.posY s_init rfl

/-- C10: when the regular sweep emits no vertex, build returns immediately:
no regular surface and no transition surface whatsoever is produced, for every
lod and every block (including non-uniform blocks whose transition sweep alone
would emit geometry). -/
theorem C10_empty_regular_skips_transitions (T : RegularTables) (TT : TransitionTables)
    (sq : ℚ → ℚ) (vb : VoxelBuffer) (lod : ℕ) (s : MesherState)
    (h : (build_internal T sq vb (clear_output s)).vertices = []) :
    (build T TT sq vb lod s).surfaces = [] ∧
    ∀ dir, (build T TT sq vb lod s).transitionSurfaces dir = [] := by
  simp [build, h]

/-- Witness for C10 on the concrete uniform block (whose regular pass is empty). -/
theorem C10_empty_regular_skips_transitions_witness :
    (build T_triv TT_triv sq_id vb_uniform 2 s_init).surfaces = [] ∧
    ∀ dir, (build T_triv TT_triv sq_id vb_uniform 2 s_init).transitionSurfaces dir = [] :=
  C10_empty_regular_skips_transitions T_triv TT_triv sq_id vb_uniform 2 s_init rfl

theorem Vec3i.sub_components (a b : Vec3i) : a - b = ⟨a.x - b.x, a.y - b.y, a.z - b.z⟩ := rfl

theorem get_border_mask_ne_zero (pos mn mx : Vec3i)
    (h : pos.x = mn.x ∨ pos.x = mx.x ∨ pos.y = mn.y ∨ pos.y = mx.y ∨ pos.z = mn.z ∨ pos.z = mx.z) :
    get_border_mask pos mn mx ≠ 0 := by
  unfold get_border_mask
  rcases h with h | h | h | h | h | h
  · rw [if_pos h]
    apply nat_or_ne_zero_left
    apply nat_or_ne_zero_left
    apply nat_or_ne_zero_left
    apply nat_or_ne_zero_left
    exact nat_or_ne_zero_left _ _ one_ne_zero
  · rw [if_pos h]
    apply nat_or_ne_zero_left
    apply nat_or_ne_zero_left
    apply nat_or_ne_zero_left
    apply nat_or_ne_zero_left
    exact nat_or_ne_zero_right _ _ (by norm_num)
  · rw [if_pos h]
    apply nat_or_ne_zero_left
    apply nat_or_ne_zero_left
    apply nat_or_ne_zero_left
    exact nat_or_ne_zero_right _ _ (by norm_num)
  · rw [if_pos h]
    apply nat_or_ne_zero_left
    apply nat_or_ne_zero_left
    exact nat_or_ne_zero_right _ _ (by norm_num)
  · rw [if_pos h]
    apply nat_or_ne_zero_left
    exact nat_or_ne_zero_right _ _ (by norm_num)
  · rw [if_pos h]
    exact nat_or_ne_zero_right _ _ (by norm_num)

/-- C1: in the transition pass, assuming the table fact that an edge never
mixes a full-resolution endpoint (index < 9) with a half-resolution one
(index >= 9), a created vertex receives the secondary position and the
endpoint mask bits exactly when its endpoints are on the full-resolution side
(and its border mask is then nonzero, the owning cell always lying on the
swept block face); any vertex with a half-resolution endpoint is emitted with
border mask 0 and the default zero secondary offset. -/
theorem C1_transition_secondary_fullres_only
    (bsNoPad min_pos max_pos : Vec3i) (cbm : ℕ) (primary normal : Vec3)
    (ia ib iv : ℕ) (pa pb pv : Vec3i)
    (h : (ia < 9 ∧ ib < 9) ∨ (9 ≤ ia ∧ 9 ≤ ib)) :
    ((9 ≤ ia ∨ 9 ≤ ib) →
      transition_vertex_border bsNoPad min_pos max_pos cbm primary normal ia ib pa pb = (0, 0)) ∧
    (ia < 9 ∧ ib < 9 →
      transition_vertex_border bsNoPad min_pos max_pos cbm primary normal ia ib pa pb =
        (cbm ||| ((get_border_mask pa min_pos max_pos &&& get_border_mask pb min_pos max_pos) <<< 6),
         get_secondary_position primary normal 0 bsNoPad min_pos) ∧
      (cbm ≠ 0 →
        (transition_vertex_border bsNoPad min_pos max_pos cbm primary normal ia ib pa pb).1 ≠ 0)) ∧
    (9 ≤ iv →
      transition_corner_border bsNoPad min_pos max_pos cbm primary normal iv pv = (0, 0)) ∧
    (iv < 9 →
      transition_corner_border bsNoPad min_pos max_pos cbm primary normal iv pv =
        (cbm ||| (get_border_mask pv min_pos max_pos <<< 6),
         get_secondary_position primary normal 0 bsNoPad min_pos) ∧
      (cbm ≠ 0 →
        (transition_corner_border bsNoPad min_pos max_pos cbm primary normal iv pv).1 ≠ 0)) ∧
    (∀ (dir : Side) (bs : Vec3i) (fx fy : ℤ),
      get_border_mask (tcell_position dir bs fx fy 0) ⟨1, 1, 1⟩ (bs - ⟨2, 2, 2⟩) ≠ 0) := by
  refine ⟨?_, ?_, ?_, ?_, ?_⟩
  · intro hge
    rw [transition_vertex_border, if_neg (by omega)]
  · intro hlt
    have he : transition_vertex_border bsNoPad min_pos max_pos cbm primary normal ia ib pa pb =
        (cbm ||| ((get_border_mask pa min_pos max_pos &&& get_border_mask pb min_pos max_pos) <<< 6),
         get_secondary_position primary normal 0 bsNoPad min_pos) := by
      rw [transition_vertex_border, if_pos (Or.inl hlt.1)]
    refine ⟨he, fun hc => ?_⟩
    rw [he]
    exact nat_or_ne_zero_left _ _ hc
  · intro hge
    rw [transition_corner_border, if_neg (by omega)]
  · intro hlt
    have he : transition_corner_border bsNoPad min_pos max_pos cbm primary normal iv pv =
        (cbm ||| (get_border_mask pv min_pos max_pos <<< 6),
         get_secondary_position primary normal 0 bsNoPad min_pos) := by
      rw [transition_corner_border, if_pos hlt]
    refine ⟨he, fun hc => ?_⟩
    rw [he]
    exact nat_or_ne_zero_left _ _ hc
  · intro dir bs fx fy
    apply get_border_mask_ne_zero
    cases dir <;>
      simp [tcell_position, transition_alias, transition_offset, face_to_block,
        MIN_PADDING, Vec3i.sub_components] <;>
      omega

/-- Witness for C1 at the half-resolution corner index 10. -/
theorem C1_transition_secondary_fullres_only_witness :
    transition_corner_border ⟨2, 2, 2⟩ ⟨1, 1, 1⟩ ⟨3, 3, 3⟩ 1 0 0 10 ⟨1, 1, 1⟩ = (0, 0) :=
  (C1_transition_secondary_fullres_only ⟨2, 2, 2⟩ ⟨1, 1, 1⟩ ⟨3, 3, 3⟩ 1 0 0
    0 1 10 ⟨1, 1, 1⟩ ⟨1, 1, 1⟩ ⟨1, 1, 1⟩ (Or.inl (by decide))).2.2.1 (by decide)

theorem clear_output_scale_output (f : ℚ) (s : MesherState) :
    clear_output (scale_output f s) = clear_output s := rfl

theorem scale_output_vertices (f : ℚ) (s : MesherState) :
    (scale_output f s).vertices = s.vertices.map (fun v => f • v) := rfl

theorem shiftLeft_one_cast_q (k : ℕ) : ((1 <<< k : ℕ) : ℚ) = 2 ^ k := by
  rw [Nat.shiftLeft_eq]
  push_cast
  ring

theorem build_dir_fold_rel (TT : TransitionTables) (sq : ℚ → ℚ) (vb : VoxelBuffer) (k : ℕ)
    (hk : 0 < k) (sides : List Side) :
    ∀ (a b : (Side → List Surface) × MesherState),
    clear_output a.2 = clear_output b.2 →
    (∀ d, (a.1 d).map Surface.vertices =
      (b.1 d).map (fun sf => sf.vertices.map (fun v => ((1 <<< k : ℕ) : ℚ) • v))) →
    ∀ d, ((sides.foldl (build_dir_step TT sq vb k) a).1 d).map Surface.vertices =
      ((sides.foldl (build_dir_step TT sq vb 0) b).1 d).map
        (fun sf => sf.vertices.map (fun v => ((1 <<< k : ℕ) : ℚ) • v)) := by
  induction sides with
  | nil => intro a b _ hsurf d; exact hsurf d
  | cons dir rest ih =>
    intro a b hstate hsurf d
    simp only [List.foldl_cons]
    apply ih
    · -- the states of the two step results clear to the same thing
      simp only [build_dir_step, hstate]
      by_cases hlen : (build_transition TT sq vb dir (clear_output b.2)).vertices.length = 0
      · rw [if_pos hlen, if_pos hlen]
      · rw [if_neg hlen, if_neg hlen]
        simp only [if_pos hk]
        rw [if_neg (by norm_num : ¬(0 : ℕ) < 0)]
        exact clear_output_scale_output _ _
    · -- the surface accumulators stay related
      intro d2
      simp only [build_dir_step, hstate]
      by_cases hlen : (build_transition TT sq vb dir (clear_output b.2)).vertices.length = 0
      · rw [if_pos hlen, if_pos hlen]
        exact hsurf d2
      · rw [if_neg hlen, if_neg hlen]
        simp only [if_pos hk]
        rw [if_neg (by norm_num : ¬(0 : ℕ) < 0)]
        by_cases hd : d2 = dir
        · simp only [if_pos hd, List.map_append, hsurf d2, List.map_cons, List.map_nil]
          rfl
        · simp only [if_neg hd]
          exact hsurf d2
  
/-- C8: building at lod k > 0 yields, surface by surface, exactly the vertex
buffers of the lod-0 build with every position multiplied by 2^k (for the
regular surface and for each transition surface). -/
theorem C8_lod_scale_property (T : RegularTables) (TT : TransitionTables) (sq : ℚ → ℚ)
    (vb : VoxelBuffer) (s : MesherState) (k : ℕ) (hk : 0 < k) :
    (build T TT sq vb k s).surfaces.map Surface.vertices =
      (build T TT sq vb 0 s).surfaces.map
        (fun sf => sf.vertices.map (fun v => ((2 : ℚ) ^ k) • v)) ∧
    ∀ dir, ((build T TT sq vb k s).transitionSurfaces dir).map Surface.vertices =
      ((build T TT sq vb 0 s).transitionSurfaces dir).map
        (fun sf => sf.vertices.map (fun v => ((2 : ℚ) ^ k) • v)) := by
  simp only [← shiftLeft_one_cast_q k]
  simp only [build]
  by_cases hlen : (build_internal T sq vb (clear_output s)).vertices.length = 0
  · rw [if_pos hlen, if_pos hlen]
    exact ⟨rfl, fun dir => rfl⟩
  · rw [if_neg hlen, if_neg hlen]
    simp only [if_pos hk]
    rw [if_neg (by norm_num : ¬(0 : ℕ) < 0)]
    constructor
    · simp only [List.map_cons, List.map_nil]
      rfl
    · intro dir
      exact build_dir_fold_rel TT sq vb k hk all_sides
        (fun _ => [], scale_output ((1 <<< k : ℕ) : ℚ) (build_internal T sq vb (clear_output s)))
        (fun _ => [], build_internal T sq vb (clear_output s))
        (clear_output_scale_output _ _) (fun _ => rfl) dir

/-- Witness for C8 at lod 1 on the concrete uniform block. -/
theorem C8_lod_scale_property_witness :
    (build T_triv TT_triv sq_id vb_uniform 1 s_init).surfaces.map Surface.vertices =
      (build T_triv TT_triv sq_id vb_uniform 0 s_init).surfaces.map
        (fun sf => sf.vertices.map (fun v => ((2 : ℚ) ^ 1) • v)) ∧
    ∀ dir, ((build T_triv TT_triv sq_id vb_uniform 1 s_init).transitionSurfaces dir).map Surface.vertices =
      ((build T_triv TT_triv sq_id vb_uniform 0 s_init).transitionSurfaces dir).map
        (fun sf => sf.vertices.map (fun v => ((2 : ℚ) ^ 1) • v)) :=
  C8_lod_scale_property T_triv TT_triv sq_id vb_uniform s_init 1 (by decide)

theorem set_reuse_slot_indices (s : MesherState) (pos : Vec3i) (k : ℕ) (v : ℤ) :
    (set_reuse_slot s pos k v).indices = s.indices := by
  unfold set_reuse_slot
  split_ifs <;> rfl

theorem set_reuse_slot_2d_indices (s : MesherState) (x y : ℤ) (k : ℕ) (v : ℤ) :
    (set_reuse_slot_2d s x y k v).indices = s.indices := by
  unfold set_reuse_slot_2d
  split_ifs <;> rfl

theorem regular_emit_interior_indices (sq : ℚ → ℚ) (P : RegularCellParams)
    (rd rvi v0 v1 : ℕ) (t0 t1 : ℚ) (cvi : List ℤ) (i : ℕ) (s : MesherState) :
    (regular_emit_interior sq P rd rvi v0 v1 t0 t1 cvi i s).2.indices = s.indices := by
  unfold regular_emit_interior
  dsimp only
  split_ifs <;> simp [set_reuse_slot_indices, push_extra, emit_vertex]

theorem regular_emit_corner7_indices (sq : ℚ → ℚ) (P : RegularCellParams)
    (v1 : ℕ) (cvi : List ℤ) (i : ℕ) (s : MesherState) :
    (regular_emit_corner7 sq P v1 cvi i s).2.indices = s.indices := by
  unfold regular_emit_corner7
  dsimp only
  split_ifs <;> simp [set_reuse_slot_indices, push_extra, emit_vertex]

theorem regular_emit_endpoint_indices (sq : ℚ → ℚ) (P : RegularCellParams)
    (v0 v1 : ℕ) (t : ℤ) (t0 t1 : ℚ) (cvi : List ℤ) (i : ℕ) (s : MesherState) :
    (regular_emit_endpoint sq P v0 v1 t t0 t1 cvi i s).2.indices = s.indices := by
  unfold regular_emit_endpoint
  dsimp only
  split_ifs <;> simp [push_extra, emit_vertex]

theorem process_regular_vertex_indices (T : RegularTables) (sq : ℚ → ℚ)
    (P : RegularCellParams) (i : ℕ) (cvi : List ℤ) (s : MesherState) :
    (vertex_result_state (process_regular_vertex T sq P i cvi s)).indices = s.indices := by
  unfold process_regular_vertex
  dsimp only
  split_ifs <;>
    simp [vertex_result_state, regular_emit_interior_indices, regular_emit_corner7_indices,
      regular_emit_endpoint_indices]

theorem process_cell_vertices_indices (T : RegularTables) (sq : ℚ → ℚ)
    (P : RegularCellParams) (l : List ℕ) :
    ∀ (cvi : List ℤ) (s : MesherState),
    (vertex_result_state (process_cell_vertices T sq P l cvi s)).indices = s.indices := by
  induction l with
  | nil => intro cvi s; rfl
  | cons i rest ih =>
    intro cvi s
    have hv := process_regular_vertex_indices T sq P i cvi s
    unfold process_cell_vertices
    cases hres : process_regular_vertex T sq P i cvi s with
    | error s1 =>
      rw [hres] at hv
      exact hv
    | ok p =>
      rw [hres] at hv
      rw [ih p.1 p.2]
      exact hv

theorem pcv_error_indices (T : RegularTables) (sq : ℚ → ℚ) (P : RegularCellParams)
    (l : List ℕ) (cvi : List ℤ) (s s1 : MesherState)
    (heq : process_cell_vertices T sq P l cvi s = .error s1) : s1.indices = s.indices := by
  have h2 := process_cell_vertices_indices T sq P l cvi s
  rw [heq] at h2
  exact h2

/-- C4 as amended: when an interpolation precondition fails for a vertex
(v1 <= v0 in the edge descriptor, or equal edge samples d0 = d1 — for the
regular and the transition kernel alike), the ERR_FAIL_COND macro returns from
the whole build function: the vertex loop and the cell sweep stop right there,
keeping the geometry emitted so far; the failing cell pushes no triangle
indices (so no degenerate triangle is produced), but the remaining vertices
and cells are NOT processed. -/
theorem C4_amended_precondition_failure_aborts_build :
    (∀ (T : RegularTables) (sq : ℚ → ℚ) (P : RegularCellParams) (i : ℕ)
        (cvi : List ℤ) (s : MesherState),
      ((T.vertexData P.caseCode i &&& 255) &&& 15 ≤ ((T.vertexData P.caseCode i &&& 255) >>> 4) &&& 15 ∨
        P.cellSamples ((T.vertexData P.caseCode i &&& 255) &&& 15) =
          P.cellSamples (((T.vertexData P.caseCode i &&& 255) >>> 4) &&& 15)) →
      process_regular_vertex T sq P i cvi s = .error s) ∧
    (∀ (TT : TransitionTables) (sq : ℚ → ℚ) (P : TransitionCellParams) (i : ℕ)
        (cvi : List ℤ) (s : MesherState),
      P.samples ((TT.vertexData P.caseCode i >>> 4) &&& 15) =
        P.samples (TT.vertexData P.caseCode i &&& 15) →
      process_transition_vertex TT sq P i cvi s = .error s) ∧
    (∀ (T : RegularTables) (sq : ℚ → ℚ) (P : RegularCellParams) (i : ℕ) (rest : List ℕ)
        (cvi : List ℤ) (s : MesherState),
      except_is_ok2 (process_regular_vertex T sq P i cvi s) = false →
      process_cell_vertices T sq P (i :: rest) cvi s = process_regular_vertex T sq P i cvi s) ∧
    (∀ (T : RegularTables) (sq : ℚ → ℚ) (vb : VoxelBuffer) (pos : Vec3i)
        (rest : List Vec3i) (s : MesherState),
      except_is_ok (process_regular_cell T sq vb pos s) = false →
      sweep_regular_cells T sq vb (pos :: rest) s =
        except_result (process_regular_cell T sq vb pos s)) ∧
    (∀ (TT : TransitionTables) (sq : ℚ → ℚ) (vb : VoxelBuffer) (dir : Side)
        (p : ℤ × ℤ) (rest : List (ℤ × ℤ)) (s : MesherState),
      except_is_ok (process_transition_cell TT sq vb dir p.1 p.2 s) = false →
      sweep_transition_cells TT sq vb dir (p :: rest) s =
        except_result (process_transition_cell TT sq vb dir p.1 p.2 s)) ∧
    (∀ (T : RegularTables) (sq : ℚ → ℚ) (P : RegularCellParams) (l : List ℕ)
        (cvi : List ℤ) (s s1 : MesherState),
      process_cell_vertices T sq P l cvi s = .error s1 → s1.indices = s.indices) := by
  refine ⟨?_, ?_, ?_, ?_, ?_, ?_⟩
  · intro T sq P i cvi s h
    unfold process_regular_vertex
    dsimp only
    split_ifs <;> try rfl
    all_goals (rcases h with h | h <;> contradiction)
  · intro TT sq P i cvi s h
    unfold process_transition_vertex
    dsimp only
    split_ifs
    rfl
  · intro T sq P i rest cvi s h
    unfold process_cell_vertices
    cases hres : process_regular_vertex T sq P i cvi s with
    | error s1 => simp [hres]
    | ok p =>
      rw [hres] at h
      simp [except_is_ok2] at h
  · intro T sq vb pos rest s h
    unfold sweep_regular_cells
    cases hres : process_regular_cell T sq vb pos s with
    | error s1 => simp [hres, except_result]
    | ok s1 =>
      rw [hres] at h
      simp [except_is_ok] at h
  · intro TT sq vb dir p rest s h
    unfold sweep_transition_cells
    cases hres : process_transition_cell TT sq vb dir p.1 p.2 s with
    | error s1 => simp [hres, except_result]
    | ok s1 =>
      rw [hres] at h
      simp [except_is_ok] at h
  · intro T sq P l cvi s s1 heq
    exact pcv_error_indices T sq P l cvi s s1 heq

/-- Counterexample to C4 as stated: on the two-cell block vb_bad with the
hypothetical table T_bad, the first swept cell fails the v1 <= v0 precondition,
and the whole build returns with 0 vertices — although processing the remaining
cell from the very abort state would emit a vertex. The sweep thus does not
skip only the offending vertex and continue; it aborts the rest of the build. -/
theorem C4_counterexample_abort_not_skip :
    (build_internal T_bad sq_id vb_bad s_init).vertices.length = 0 ∧
    except_is_ok (process_regular_cell T_bad sq_id vb_bad ⟨2, 1, 1⟩
      (build_internal T_bad sq_id vb_bad s_init)) = true ∧
    (except_result (process_regular_cell T_bad sq_id vb_bad ⟨2, 1, 1⟩
      (build_internal T_bad sq_id vb_bad s_init))).vertices.length = 1 :=
  ⟨by decide, by decide, by decide⟩

/-- Witness for the amended C4 at the concrete failing inputs. -/
theorem C4_amended_precondition_failure_aborts_build_witness :
    process_regular_vertex T_bad sq_id P_w 0 (List.replicate 12 (-1)) s_init = .error s_init ∧
    sweep_regular_cells T_bad sq_id vb_bad [⟨1, 1, 1⟩, ⟨2, 1, 1⟩]
        (reset_reuse_cells ⟨5, 4, 4⟩ s_init) =
      except_result (process_regular_cell T_bad sq_id vb_bad ⟨1, 1, 1⟩
        (reset_reuse_cells ⟨5, 4, 4⟩ s_init)) ∧
    s_init.indices = s_init.indices :=
  ⟨C4_amended_precondition_failure_aborts_build.1 T_bad sq_id P_w 0
      (List.replicate 12 (-1)) s_init (Or.inl (by decide)),
   C4_amended_precondition_failure_aborts_build.2.2.2.1 T_bad sq_id vb_bad ⟨1, 1, 1⟩
      [⟨2, 1, 1⟩] (reset_reuse_cells ⟨5, 4, 4⟩ s_init) (by decide),
   C4_amended_precondition_failure_aborts_build.2.2.2.2.2 T_bad sq_id P_w [0]
      (List.replicate 12 (-1)) s_init s_init (by rfl)⟩

theorem idx_ok_mono {len len' : ℕ} {v : ℤ} (h : idx_ok len v) (hle : len ≤ len') :
    idx_ok len' v :=
  ⟨h.1, lt_of_lt_of_le h.2 (by exact_mod_cast hle)⟩

theorem slot_ok_mono {len len' : ℕ} {c : List ℤ} (h : slot_ok len c) (hle : len ≤ len') :
    slot_ok len' c :=
  fun v hv => (h v hv).imp id (fun hi => idx_ok_mono hi hle)

theorem deck_ok_mono {len len' : ℕ} {d : List (List ℤ)} (h : deck_ok len d) (hle : len ≤ len') :
    deck_ok len' d :=
  fun c hc => slot_ok_mono (h c hc) hle

theorem slot_ok_replicate (len n : ℕ) : slot_ok len (List.replicate n (-1)) :=
  fun v hv => Or.inl (List.mem_replicate.mp hv).2

theorem deck_ok_replicate (len n m : ℕ) :
    deck_ok len (List.replicate n (List.replicate m (-1))) :=
  fun c hc => by
    rw [(List.mem_replicate.mp hc).2]
    exact slot_ok_replicate len m

theorem getD_set_ne_int (l : List ℤ) (i : ℕ) (v : ℤ) (k : ℕ) (h : k ≠ i) :
    (l.set i v).getD k (-1) = l.getD k (-1) := by
  simp [List.getD, List.getElem?_set_ne (Ne.symm h)]

theorem getD_set_self_int (l : List ℤ) (i : ℕ) (v : ℤ) (h : i < l.length) :
    (l.set i v).getD i (-1) = v := by
  simp [List.getD, List.getElem?_set_self h]

theorem slot_getD_ok {len : ℕ} {c : List ℤ} (h : slot_ok len c) (k : ℕ) :
    c.getD k (-1) = -1 ∨ idx_ok len (c.getD k (-1)) := by
  by_cases hk : k < c.length
  · rw [List.getD_eq_getElem c (-1) hk]
    exact (h (c.get ⟨k, hk⟩) (List.getElem_mem hk)).imp id id
  · rw [List.getD_eq_default c (-1) (le_of_not_lt hk)]
    exact Or.inl rfl

theorem deck_getD_ok {len : ℕ} {d : List (List ℤ)} (h : deck_ok len d) (i : ℕ)
    {c0 : List ℤ} (h0 : slot_ok len c0) : slot_ok len (d.getD i c0) := by
  by_cases hi : i < d.length
  · rw [List.getD_eq_getElem d c0 hi]
    exact h (d.get ⟨i, hi⟩) (List.getElem_mem hi)
  · rw [List.getD_eq_default d c0 (le_of_not_lt hi)]
    exact h0

theorem slot_ok_set {len : ℕ} {c : List ℤ} (h : slot_ok len c) (k : ℕ) {v : ℤ}
    (hv : v = -1 ∨ idx_ok len v) : slot_ok len (c.set k v) := by
  intro w hw
  rcases List.mem_or_eq_of_mem_set hw with hmem | rfl
  · exact h w hmem
  · exact hv

theorem deck_ok_update_slot {len : ℕ} {d : List (List ℤ)} (h : deck_ok len d) (i k : ℕ)
    {v : ℤ} (hv : v = -1 ∨ idx_ok len v) : deck_ok len (update_slot d i k v) := by
  intro c hc
  rcases List.mem_or_eq_of_mem_set hc with hmem | rfl
  · exact h c hmem
  · exact slot_ok_set (deck_getD_ok h i (slot_ok_replicate len 4)) k hv

theorem deck_ok_update_slot_2d {len : ℕ} {d : List (List ℤ)} (h : deck_ok len d) (i k : ℕ)
    {v : ℤ} (hv : v = -1 ∨ idx_ok len v) : deck_ok len (update_slot_2d d i k v) := by
  intro c hc
  rcases List.mem_or_eq_of_mem_set hc with hmem | rfl
  · exact h c hmem
  · exact slot_ok_set (deck_getD_ok h i (slot_ok_replicate len 10)) k hv

theorem set_reuse_slot_fields (s : MesherState) (pos : Vec3i) (k : ℕ) (v : ℤ) :
    (set_reuse_slot s pos k v).vertices = s.vertices ∧
    (set_reuse_slot s pos k v).indices = s.indices ∧
    (set_reuse_slot s pos k v).cache2 = s.cache2 := by
  unfold set_reuse_slot
  split_ifs <;> exact ⟨rfl, rfl, rfl⟩

theorem set_reuse_slot_2d_fields (s : MesherState) (x y : ℤ) (k : ℕ) (v : ℤ) :
    (set_reuse_slot_2d s x y k v).vertices = s.vertices ∧
    (set_reuse_slot_2d s x y k v).indices = s.indices ∧
    (set_reuse_slot_2d s x y k v).cache = s.cache := by
  unfold set_reuse_slot_2d
  split_ifs <;> exact ⟨rfl, rfl, rfl⟩

theorem state_ok_r_set_reuse_slot {s : MesherState} (hs : state_ok_r s) (pos : Vec3i)
    (k : ℕ) {v : ℤ} (hv : v = -1 ∨ idx_ok s.vertices.length v) :
    state_ok_r (set_reuse_slot s pos k v) := by
  unfold set_reuse_slot
  split_ifs <;>
    exact ⟨by first
        | exact deck_ok_update_slot hs.1 _ _ hv
        | exact hs.1,
      by first
        | exact deck_ok_update_slot hs.2.1 _ _ hv
        | exact hs.2.1,
      hs.2.2⟩

theorem state_ok_t_set_reuse_slot {s : MesherState} (hs : state_ok_t s) (pos : Vec3i)
    (k : ℕ) (v : ℤ) : state_ok_t (set_reuse_slot s pos k v) := by
  unfold set_reuse_slot
  split_ifs <;> exact ⟨hs.1, hs.2.1, hs.2.2⟩

theorem state_ok_t_set_reuse_slot_2d {s : MesherState} (hs : state_ok_t s) (x y : ℤ)
    (k : ℕ) {v : ℤ} (hv : v = -1 ∨ idx_ok s.vertices.length v) :
    state_ok_t (set_reuse_slot_2d s x y k v) := by
  unfold set_reuse_slot_2d
  split_ifs <;>
    exact ⟨by first
        | exact deck_ok_update_slot_2d hs.1 _ _ hv
        | exact hs.1,
      by first
        | exact deck_ok_update_slot_2d hs.2.1 _ _ hv
        | exact hs.2.1,
      hs.2.2⟩

theorem state_ok_r_set_reuse_slot_2d {s : MesherState} (hs : state_ok_r s) (x y : ℤ)
    (k : ℕ) (v : ℤ) : state_ok_r (set_reuse_slot_2d s x y k v) := by
  unfold set_reuse_slot_2d
  split_ifs <;> exact ⟨hs.1, hs.2.1, hs.2.2⟩

theorem state_ok_r_emit {s : MesherState} (hs : state_ok_r s) (p n : Vec3) (t : ℚ) (b : ℕ) :
    state_ok_r (push_extra (emit_vertex s p n) t b) ∧
    (push_extra (emit_vertex s p n) t b).vertices.length = s.vertices.length + 1 := by
  have hlen : (push_extra (emit_vertex s p n) t b).vertices.length = s.vertices.length + 1 := by
    simp [push_extra, emit_vertex]
  refine ⟨⟨?_, ?_, ?_⟩, hlen⟩
  · rw [hlen]
    exact deck_ok_mono hs.1 (Nat.le_succ _)
  · rw [hlen]
    exact deck_ok_mono hs.2.1 (Nat.le_succ _)
  · rw [hlen]
    intro v hv
    exact idx_ok_mono (hs.2.2 v hv) (Nat.le_succ _)

theorem state_ok_t_emit {s : MesherState} (hs : state_ok_t s) (p n : Vec3) (t : ℚ) (b : ℕ) :
    state_ok_t (push_extra (emit_vertex s p n) t b) ∧
    (push_extra (emit_vertex s p n) t b).vertices.length = s.vertices.length + 1 := by
  have hlen : (push_extra (emit_vertex s p n) t b).vertices.length = s.vertices.length + 1 := by
    simp [push_extra, emit_vertex]
  refine ⟨⟨?_, ?_, ?_⟩, hlen⟩
  · rw [hlen]
    exact deck_ok_mono hs.1 (Nat.le_succ _)
  · rw [hlen]
    exact deck_ok_mono hs.2.1 (Nat.le_succ _)
  · rw [hlen]
    intro v hv
    exact idx_ok_mono (hs.2.2 v hv) (Nat.le_succ _)

theorem state_ok_r_push_indices {s : MesherState} (hs : state_ok_r s) {l : List ℤ}
    (hl : ∀ v ∈ l, idx_ok s.vertices.length v) : state_ok_r (push_indices s l) := by
  refine ⟨hs.1, hs.2.1, ?_⟩
  intro v hv
  rcases List.mem_append.mp hv with h | h
  · exact hs.2.2 v h
  · exact hl v h

theorem state_ok_t_push_indices {s : MesherState} (hs : state_ok_t s) {l : List ℤ}
    (hl : ∀ v ∈ l, idx_ok s.vertices.length v) : state_ok_t (push_indices s l) := by
  refine ⟨hs.1, hs.2.1, ?_⟩
  intro v hv
  rcases List.mem_append.mp hv with h | h
  · exact hs.2.2 v h
  · exact hl v h

theorem cache_read_ok_r {s : MesherState} (hs : state_ok_r s) (pos : Vec3i) (k : ℕ) :
    (get_reuse_cell s pos).getD k (-1) = -1 ∨
      idx_ok s.vertices.length ((get_reuse_cell s pos).getD k (-1)) := by
  unfold get_reuse_cell
  split_ifs
  · exact slot_getD_ok (deck_getD_ok hs.2.1 _ (slot_ok_replicate _ 4)) k
  · exact slot_getD_ok (deck_getD_ok hs.1 _ (slot_ok_replicate _ 4)) k

theorem cache_read_ok_t {s : MesherState} (hs : state_ok_t s) (x y : ℤ) (k : ℕ) :
    (get_reuse_cell_2d s x y).getD k (-1) = -1 ∨
      idx_ok s.vertices.length ((get_reuse_cell_2d s x y).getD k (-1)) := by
  unfold get_reuse_cell_2d
  split_ifs
  · exact slot_getD_ok (deck_getD_ok hs.2.1 _ (slot_ok_replicate _ 10)) k
  · exact slot_getD_ok (deck_getD_ok hs.1 _ (slot_ok_replicate _ 10)) k

theorem idx_ok_self_len (len : ℕ) : idx_ok (len + 1) (len : ℤ) := by
  unfold idx_ok
  omega

theorem idx_ok_of_read_ne_r {s : MesherState} (hs : state_ok_r s) {pos : Vec3i} {k : ℕ}
    (h : (get_reuse_cell s pos).getD k (-1) ≠ -1) :
    idx_ok s.vertices.length ((get_reuse_cell s pos).getD k (-1)) :=
  (cache_read_ok_r hs pos k).resolve_left h

theorem idx_ok_of_read_nonneg_r {s : MesherState} (hs : state_ok_r s) {pos : Vec3i} {k : ℕ}
    (h : ¬(get_reuse_cell s pos).getD k (-1) < 0) :
    idx_ok s.vertices.length ((get_reuse_cell s pos).getD k (-1)) := by
  refine (cache_read_ok_r hs pos k).resolve_left ?_
  intro he
  rw [he] at h
  exact h (by norm_num)

theorem idx_ok_of_read_ne_t {s : MesherState} (hs : state_ok_t s) {x y : ℤ} {k : ℕ}
    (h : (get_reuse_cell_2d s x y).getD k (-1) ≠ -1) :
    idx_ok s.vertices.length ((get_reuse_cell_2d s x y).getD k (-1)) :=
  (cache_read_ok_t hs x y k).resolve_left h

theorem regular_emit_interior_ok {sq : ℚ → ℚ} {P : RegularCellParams}
    {rd rvi v0 v1 : ℕ} {t0 t1 : ℚ} {cvi : List ℤ} {i : ℕ} {s : MesherState}
    (hs : state_ok_r s) :
    state_ok_r (regular_emit_interior sq P rd rvi v0 v1 t0 t1 cvi i s).2 ∧
    (regular_emit_interior sq P rd rvi v0 v1 t0 t1 cvi i s).2.vertices.length =
      s.vertices.length + 1 ∧
    (regular_emit_interior sq P rd rvi v0 v1 t0 t1 cvi i s).1 =
      cvi.set i (s.vertices.length : ℤ) := by
  unfold regular_emit_interior
  dsimp only
  split_ifs <;>
    refine ⟨?_, ?_, rfl⟩ <;>
    first
      | (apply state_ok_r_set_reuse_slot (state_ok_r_emit hs _ _ _ _).1
         right
         rw [(state_ok_r_emit hs _ _ _ _).2]
         exact idx_ok_self_len _)
      | exact (state_ok_r_emit hs _ _ _ _).1
      | rw [(set_reuse_slot_fields _ _ _ _).1, (state_ok_r_emit hs _ _ _ _).2]
      | exact (state_ok_r_emit hs _ _ _ _).2

theorem regular_emit_corner7_ok {sq : ℚ → ℚ} {P : RegularCellParams}
    {v1 : ℕ} {cvi : List ℤ} {i : ℕ} {s : MesherState} (hs : state_ok_r s) :
    state_ok_r (regular_emit_corner7 sq P v1 cvi i s).2 ∧
    (regular_emit_corner7 sq P v1 cvi i s).2.vertices.length = s.vertices.length + 1 ∧
    (regular_emit_corner7 sq P v1 cvi i s).1 = cvi.set i (s.vertices.length : ℤ) := by
  unfold regular_emit_corner7
  dsimp only
  split_ifs <;>
    refine ⟨?_, ?_, rfl⟩ <;>
    first
      | (apply state_ok_r_set_reuse_slot (state_ok_r_emit hs _ _ _ _).1
         right
         rw [(state_ok_r_emit hs _ _ _ _).2]
         exact idx_ok_self_len _)
      | rw [(set_reuse_slot_fields _ _ _ _).1, (state_ok_r_emit hs _ _ _ _).2]

theorem regular_emit_endpoint_ok {sq : ℚ → ℚ} {P : RegularCellParams}
    {v0 v1 : ℕ} {t : ℤ} {t0 t1 : ℚ} {cvi : List ℤ} {i : ℕ} {s : MesherState}
    (hs : state_ok_r s) :
    state_ok_r (regular_emit_endpoint sq P v0 v1 t t0 t1 cvi i s).2 ∧
    (regular_emit_endpoint sq P v0 v1 t t0 t1 cvi i s).2.vertices.length =
      s.vertices.length + 1 ∧
    (regular_emit_endpoint sq P v0 v1 t t0 t1 cvi i s).1 =
      cvi.set i (s.vertices.length : ℤ) := by
  unfold regular_emit_endpoint
  dsimp only
  split_ifs <;>
    refine ⟨?_, ?_, rfl⟩ <;>
    first
      | exact (state_ok_r_emit hs _ _ _ _).1
      | exact (state_ok_r_emit hs _ _ _ _).2

theorem transition_emit_interior_ok {sq : ℚ → ℚ} {P : TransitionCellParams}
    {rd rvi ia ib : ℕ} {t0 t1 : ℚ} {cvi : List ℤ} {i : ℕ} {s : MesherState}
    (hs : state_ok_t s) :
    state_ok_t (transition_emit_interior sq P rd rvi ia ib t0 t1 cvi i s).2 ∧
    (transition_emit_interior sq P rd rvi ia ib t0 t1 cvi i s).2.vertices.length =
      s.vertices.length + 1 ∧
    (transition_emit_interior sq P rd rvi ia ib t0 t1 cvi i s).1 =
      cvi.set i (s.vertices.length : ℤ) := by
  unfold transition_emit_interior
  dsimp only
  split_ifs <;>
    refine ⟨?_, ?_, rfl⟩ <;>
    first
      | (apply state_ok_t_set_reuse_slot_2d (state_ok_t_emit hs _ _ _ _).1
         right
         rw [(state_ok_t_emit hs _ _ _ _).2]
         exact idx_ok_self_len _)
      | exact (state_ok_t_emit hs _ _ _ _).1
      | rw [(set_reuse_slot_2d_fields _ _ _ _ _).1, (state_ok_t_emit hs _ _ _ _).2]
      | exact (state_ok_t_emit hs _ _ _ _).2

theorem transition_emit_corner_ok {sq : ℚ → ℚ} {P : TransitionCellParams}
    {rvi iv : ℕ} {cvi : List ℤ} {i : ℕ} {s : MesherState} (hs : state_ok_t s) :
    state_ok_t (transition_emit_corner sq P rvi iv cvi i s).2 ∧
    (transition_emit_corner sq P rvi iv cvi i s).2.vertices.length =
      s.vertices.length + 1 ∧
    (transition_emit_corner sq P rvi iv cvi i s).1 =
      cvi.set i (s.vertices.length : ℤ) := by
  unfold transition_emit_corner
  dsimp only
  refine ⟨?_, ?_, rfl⟩
  · apply state_ok_t_set_reuse_slot_2d (state_ok_t_emit hs _ _ _ _).1
    right
    rw [(state_ok_t_emit hs _ _ _ _).2]
    exact idx_ok_self_len _
  · rw [(set_reuse_slot_2d_fields _ _ _ _ _).1, (state_ok_t_emit hs _ _ _ _).2]

theorem process_regular_vertex_ok {T : RegularTables} {sq : ℚ → ℚ} {P : RegularCellParams}
    {i : ℕ} {cvi : List ℤ} {s : MesherState} {cvi1 : List ℤ} {s1 : MesherState}
    (hok : process_regular_vertex T sq P i cvi s = .ok (cvi1, s1))
    (hs : state_ok_r s) (hi : i < cvi.length) :
    state_ok_r s1 ∧ s.vertices.length ≤ s1.vertices.length ∧
    cvi1.length = cvi.length ∧
    (∀ k, k ≠ i → cvi1.getD k (-1) = cvi.getD k (-1)) ∧
    idx_ok s1.vertices.length (cvi1.getD i (-1)) := by
  unfold process_regular_vertex at hok
  dsimp only at hok
  set D := T.vertexData P.caseCode i with hD
  set sv1 := P.cellSamples (D &&& 255 &&& 15) with hsv1
  set sv0 := P.cellSamples ((D &&& 255) >>> 4 &&& 15) with hsv0
  set tE := (sv1 * 256).tdiv (sv1 - sv0) with htE
  set RD := (D >>> 8 &&& 255) >>> 4 &&& 15 with hRD
  set RVI := D >>> 8 &&& 255 &&& 15 with hRVI
  by_cases g1 : D &&& 255 &&& 15 ≤ (D &&& 255) >>> 4 &&& 15
  · rw [if_pos g1] at hok
    simp at hok
  rw [if_neg g1] at hok
  by_cases g2 : sv1 = sv0
  · rw [if_pos g2] at hok
    simp at hok
  rw [if_neg g2] at hok
  by_cases g3 : sv1 = 0 ∧ sv0 = 0
  · rw [if_pos g3] at hok
    simp at hok
  rw [if_neg g3] at hok
  by_cases g4 : tE.emod 256 ≠ 0
  · -- interior branch
    rw [if_pos g4] at hok
    by_cases g5 : RD &&& P.validityMask = RD
    · rw [if_pos g5] at hok
      by_cases g6 : RD &&& P.validityMask = RD ∧
          (get_reuse_cell s (P.pos + dir_to_prev_vec RD)).getD RVI (-1) ≠ -1
      · -- cache hit
        rw [if_pos g6] at hok
        rw [Except.ok.injEq, Prod.mk.injEq] at hok
        obtain ⟨hc, hs1⟩ := hok
        subst hc
        subst hs1
        refine ⟨hs, le_refl _, List.length_set _ _ _,
          fun k hk => getD_set_ne_int _ _ _ _ hk, ?_⟩
        rw [getD_set_self_int _ _ _ hi]
        exact idx_ok_of_read_ne_r hs g6.2
      · rw [if_neg g6] at hok
        rw [Except.ok.injEq] at hok
        have h1 := congrArg Prod.fst hok
        have h2 := congrArg Prod.snd hok
        dsimp only at h1 h2
        subst h1
        subst h2
        refine ⟨(regular_emit_interior_ok hs).1, ?_, ?_, ?_, ?_⟩
        · rw [(regular_emit_interior_ok hs).2.1]
          exact Nat.le_succ _
        · rw [(regular_emit_interior_ok hs).2.2]
          exact List.length_set _ _ _
        · intro k hk
          rw [(regular_emit_interior_ok hs).2.2]
          exact getD_set_ne_int _ _ _ _ hk
        · rw [(regular_emit_interior_ok hs).2.2, getD_set_self_int _ _ _ hi,
            (regular_emit_interior_ok hs).2.1]
          exact idx_ok_self_len _
    · rw [if_neg g5] at hok
      rw [if_neg (fun hc => hc.2 rfl : ¬(RD &&& P.validityMask = RD ∧ (-1 : ℤ) ≠ -1))] at hok
      rw [Except.ok.injEq] at hok
      have h1 := congrArg Prod.fst hok
      have h2 := congrArg Prod.snd hok
      dsimp only at h1 h2
      subst h1
      subst h2
      refine ⟨(regular_emit_interior_ok hs).1, ?_, ?_, ?_, ?_⟩
      · rw [(regular_emit_interior_ok hs).2.1]
        exact Nat.le_succ _
      · rw [(regular_emit_interior_ok hs).2.2]
        exact List.length_set _ _ _
      · intro k hk
        rw [(regular_emit_interior_ok hs).2.2]
        exact getD_set_ne_int _ _ _ _ hk
      · rw [(regular_emit_interior_ok hs).2.2, getD_set_self_int _ _ _ hi,
          (regular_emit_interior_ok hs).2.1]
        exact idx_ok_self_len _
  · -- endpoint branches
    rw [if_neg g4] at hok
    by_cases g7 : tE = 0 ∧ D &&& 255 &&& 15 = 7
    · rw [if_pos g7] at hok
      rw [Except.ok.injEq] at hok
      have h1 := congrArg Prod.fst hok
      have h2 := congrArg Prod.snd hok
      dsimp only at h1 h2
      subst h1
      subst h2
      refine ⟨(regular_emit_corner7_ok hs).1, ?_, ?_, ?_, ?_⟩
      · rw [(regular_emit_corner7_ok hs).2.1]
        exact Nat.le_succ _
      · rw [(regular_emit_corner7_ok hs).2.2]
        exact List.length_set _ _ _
      · intro k hk
        rw [(regular_emit_corner7_ok hs).2.2]
        exact getD_set_ne_int _ _ _ _ hk
      · rw [(regular_emit_corner7_ok hs).2.2, getD_set_self_int _ _ _ hi,
          (regular_emit_corner7_ok hs).2.1]
        exact idx_ok_self_len _
    · rw [if_neg g7] at hok
      set RD2 := if tE = 0 then D &&& 255 &&& 15 ^^^ 7 else (D &&& 255) >>> 4 &&& 15 ^^^ 7 with hRD2
      by_cases g8 : RD2 &&& P.validityMask = RD2
      · rw [if_pos g8] at hok
        by_cases g9 : RD2 &&& P.validityMask = RD2 ∧
            ¬(get_reuse_cell s (P.pos + dir_to_prev_vec RD2)).getD 0 (-1) < 0
        · rw [if_pos g9] at hok
          rw [Except.ok.injEq, Prod.mk.injEq] at hok
          obtain ⟨hc, hs1⟩ := hok
          subst hc
          subst hs1
          refine ⟨hs, le_refl _, List.length_set _ _ _,
            fun k hk => getD_set_ne_int _ _ _ _ hk, ?_⟩
          rw [getD_set_self_int _ _ _ hi]
          exact idx_ok_of_read_nonneg_r hs g9.2
        · rw [if_neg g9] at hok
          rw [Except.ok.injEq] at hok
          have h1 := congrArg Prod.fst hok
          have h2 := congrArg Prod.snd hok
          dsimp only at h1 h2
          subst h1
          subst h2
          refine ⟨(regular_emit_endpoint_ok hs).1, ?_, ?_, ?_, ?_⟩
          · rw [(regular_emit_endpoint_ok hs).2.1]
            exact Nat.le_succ _
          · rw [(regular_emit_endpoint_ok hs).2.2]
            exact List.length_set _ _ _
          · intro k hk
            rw [(regular_emit_endpoint_ok hs).2.2]
            exact getD_set_ne_int _ _ _ _ hk
          · rw [(regular_emit_endpoint_ok hs).2.2, getD_set_self_int _ _ _ hi,
              (regular_emit_endpoint_ok hs).2.1]
            exact idx_ok_self_len _
      · rw [if_neg g8] at hok
        rw [if_neg (fun hc => hc.2 (by norm_num) :
          ¬(RD2 &&& P.validityMask = RD2 ∧ ¬(-1 : ℤ) < 0))] at hok
        rw [Except.ok.injEq] at hok
        have h1 := congrArg Prod.fst hok
        have h2 := congrArg Prod.snd hok
        dsimp only at h1 h2
        subst h1
        subst h2
        refine ⟨(regular_emit_endpoint_ok hs).1, ?_, ?_, ?_, ?_⟩
        · rw [(regular_emit_endpoint_ok hs).2.1]
          exact Nat.le_succ _
        · rw [(regular_emit_endpoint_ok hs).2.2]
          exact List.length_set _ _ _
        · intro k hk
          rw [(regular_emit_endpoint_ok hs).2.2]
          exact getD_set_ne_int _ _ _ _ hk
        · rw [(regular_emit_endpoint_ok hs).2.2, getD_set_self_int _ _ _ hi,
            (regular_emit_endpoint_ok hs).2.1]
          exact idx_ok_self_len _

theorem process_transition_vertex_ok {TT : TransitionTables} {sq : ℚ → ℚ}
    {P : TransitionCellParams} {i : ℕ} {cvi : List ℤ} {s : MesherState}
    {cvi1 : List ℤ} {s1 : MesherState}
    (hok : process_transition_vertex TT sq P i cvi s = .ok (cvi1, s1))
    (hs : state_ok_t s) (hi : i < cvi.length) :
    state_ok_t s1 ∧ s.vertices.length ≤ s1.vertices.length ∧
    cvi1.length = cvi.length ∧
    (∀ k, k ≠ i → cvi1.getD k (-1) = cvi.getD k (-1)) ∧
    idx_ok s1.vertices.length (cvi1.getD i (-1)) := by
  unfold process_transition_vertex at hok
  dsimp only at hok
  set E := TT.vertexData P.caseCode i with hE
  set sa := P.samples (E >>> 4 &&& 15) with hsa
  set sb := P.samples (E &&& 15) with hsb
  set tE := (sb * 256).tdiv (sb - sa) with htE
  by_cases g1 : sa = sb
  · rw [if_pos g1] at hok
    simp at hok
  rw [if_neg g1] at hok
  by_cases g2 : sa = 0 ∧ sb = 0
  · rw [if_pos g2] at hok
    simp at hok
  rw [if_neg g2] at hok
  by_cases g3 : tE.emod 256 ≠ 0
  · -- interior branch
    rw [if_pos g3] at hok
    set RVI := E >>> 8 &&& 15 with hRVI
    set RD := E >>> 12 with hRD
    by_cases g4 : RD &&& P.validityMask = RD
    · rw [if_pos g4] at hok
      by_cases g5 : RD &&& P.validityMask = RD ∧
          (get_reuse_cell_2d s (P.fx - ((RD &&& 1 : ℕ) : ℤ))
            (P.fy - ((RD >>> 1 &&& 1 : ℕ) : ℤ))).getD RVI (-1) ≠ -1
      · rw [if_pos g5] at hok
        rw [Except.ok.injEq, Prod.mk.injEq] at hok
        obtain ⟨hc, hs1⟩ := hok
        subst hc
        subst hs1
        refine ⟨hs, le_refl _, List.length_set _ _ _,
          fun k hk => getD_set_ne_int _ _ _ _ hk, ?_⟩
        rw [getD_set_self_int _ _ _ hi]
        exact idx_ok_of_read_ne_t hs g5.2
      · rw [if_neg g5] at hok
        rw [Except.ok.injEq] at hok
        have h1 := congrArg Prod.fst hok
        have h2 := congrArg Prod.snd hok
        dsimp only at h1 h2
        subst h1
        subst h2
        refine ⟨(transition_emit_interior_ok hs).1, ?_, ?_, ?_, ?_⟩
        · rw [(transition_emit_interior_ok hs).2.1]
          exact Nat.le_succ _
        · rw [(transition_emit_interior_ok hs).2.2]
          exact List.length_set _ _ _
        · intro k hk
          rw [(transition_emit_interior_ok hs).2.2]
          exact getD_set_ne_int _ _ _ _ hk
        · rw [(transition_emit_interior_ok hs).2.2, getD_set_self_int _ _ _ hi,
            (transition_emit_interior_ok hs).2.1]
          exact idx_ok_self_len _
    · rw [if_neg g4] at hok
      rw [if_neg (fun hc => hc.2 rfl : ¬(RD &&& P.validityMask = RD ∧ (-1 : ℤ) ≠ -1))] at hok
      rw [Except.ok.injEq] at hok
      have h1 := congrArg Prod.fst hok
      have h2 := congrArg Prod.snd hok
      dsimp only at h1 h2
      subst h1
      subst h2
      refine ⟨(transition_emit_interior_ok hs).1, ?_, ?_, ?_, ?_⟩
      · rw [(transition_emit_interior_ok hs).2.1]
        exact Nat.le_succ _
      · rw [(transition_emit_interior_ok hs).2.2]
        exact List.length_set _ _ _
      · intro k hk
        rw [(transition_emit_interior_ok hs).2.2]
        exact getD_set_ne_int _ _ _ _ hk
      · rw [(transition_emit_interior_ok hs).2.2, getD_set_self_int _ _ _ hi,
          (transition_emit_interior_ok hs).2.1]
        exact idx_ok_self_len _
  · -- corner branch
    rw [if_neg g3] at hok
    set IV := if tE = 0 then E &&& 15 else E >>> 4 &&& 15 with hIV
    set CD := TT.cornerData IV with hCD
    set RVI2 := CD &&& 15 with hRVI2
    set RD2 := CD >>> 4 &&& 15 with hRD2
    by_cases g6 : RD2 &&& P.validityMask = RD2
    · rw [if_pos g6] at hok
      by_cases g7 : RD2 &&& P.validityMask = RD2 ∧
          (get_reuse_cell_2d s (P.fx - ((RD2 &&& 1 : ℕ) : ℤ))
            (P.fy - ((RD2 >>> 1 &&& 1 : ℕ) : ℤ))).getD RVI2 (-1) ≠ -1
      · rw [if_pos g7] at hok
        rw [Except.ok.injEq, Prod.mk.injEq] at hok
        obtain ⟨hc, hs1⟩ := hok
        subst hc
        subst hs1
        refine ⟨hs, le_refl _, List.length_set _ _ _,
          fun k hk => getD_set_ne_int _ _ _ _ hk, ?_⟩
        rw [getD_set_self_int _ _ _ hi]
        exact idx_ok_of_read_ne_t hs g7.2
      · rw [if_neg g7] at hok
        rw [Except.ok.injEq] at hok
        have h1 := congrArg Prod.fst hok
        have h2 := congrArg Prod.snd hok
        dsimp only at h1 h2
        subst h1
        subst h2
        refine ⟨(transition_emit_corner_ok hs).1, ?_, ?_, ?_, ?_⟩
        · rw [(transition_emit_corner_ok hs).2.1]
          exact Nat.le_succ _
        · rw [(transition_emit_corner_ok hs).2.2]
          exact List.length_set _ _ _
        · intro k hk
          rw [(transition_emit_corner_ok hs).2.2]
          exact getD_set_ne_int _ _ _ _ hk
        · rw [(transition_emit_corner_ok hs).2.2, getD_set_self_int _ _ _ hi,
            (transition_emit_corner_ok hs).2.1]
          exact idx_ok_self_len _
    · rw [if_neg g6] at hok
      rw [if_neg (fun hc => hc.2 rfl : ¬(RD2 &&& P.validityMask = RD2 ∧ (-1 : ℤ) ≠ -1))] at hok
      rw [Except.ok.injEq] at hok
      have h1 := congrArg Prod.fst hok
      have h2 := congrArg Prod.snd hok
      dsimp only at h1 h2
      subst h1
      subst h2
      refine ⟨(transition_emit_corner_ok hs).1, ?_, ?_, ?_, ?_⟩
      · rw [(transition_emit_corner_ok hs).2.1]
        exact Nat.le_succ _
      · rw [(transition_emit_corner_ok hs).2.2]
        exact List.length_set _ _ _
      · intro k hk
        rw [(transition_emit_corner_ok hs).2.2]
        exact getD_set_ne_int _ _ _ _ hk
      · rw [(transition_emit_corner_ok hs).2.2, getD_set_self_int _ _ _ hi,
          (transition_emit_corner_ok hs).2.1]
        exact idx_ok_self_len _

theorem process_regular_vertex_error {T : RegularTables} {sq : ℚ → ℚ} {P : RegularCellParams}
    {i : ℕ} {cvi : List ℤ} {s s1 : MesherState}
    (h : process_regular_vertex T sq P i cvi s = .error s1) : s1 = s := by
  unfold process_regular_vertex at h
  dsimp only at h
  split_ifs at h <;>
    first
      | (rw [Except.error.injEq] at h; exact h.symm)
      | simp at h

theorem process_transition_vertex_error {TT : TransitionTables} {sq : ℚ → ℚ}
    {P : TransitionCellParams} {i : ℕ} {cvi : List ℤ} {s s1 : MesherState}
    (h : process_transition_vertex TT sq P i cvi s = .error s1) : s1 = s := by
  unfold process_transition_vertex at h
  dsimp only at h
  split_ifs at h <;>
    first
      | (rw [Except.error.injEq] at h; exact h.symm)
      | simp at h

theorem pcv_ok_invariant (T : RegularTables) (sq : ℚ → ℚ) (P : RegularCellParams) (vc : ℕ) :
    ∀ (l : List ℕ) (cvi : List ℤ) (s : MesherState),
    (∀ j ∈ l, j < cvi.length) → cvi.length = 12 → state_ok_r s →
    cvi_ok s.vertices.length vc l cvi →
    (∀ s1, process_cell_vertices T sq P l cvi s = .error s1 → state_ok_r s1) ∧
    (∀ cvi1 s1, process_cell_vertices T sq P l cvi s = .ok (cvi1, s1) →
      state_ok_r s1 ∧ s.vertices.length ≤ s1.vertices.length ∧
      cvi_ok s1.vertices.length vc [] cvi1) := by
  intro l
  induction l with
  | nil =>
    intro cvi s _ _ hs hcvi
    constructor
    · intro s1 h
      simp [process_cell_vertices] at h
    · intro cvi1 s1 h
      rw [process_cell_vertices, Except.ok.injEq, Prod.mk.injEq] at h
      obtain ⟨h1, h2⟩ := h
      subst h1
      subst h2
      exact ⟨hs, le_refl _, hcvi⟩
  | cons i rest ih =>
    intro cvi s hl h12 hs hcvi
    have hstep : ∀ r, process_cell_vertices T sq P (i :: rest) cvi s = r →
        process_cell_vertices T sq P (i :: rest) cvi s =
          match process_regular_vertex T sq P i cvi s with
          | .error s1 => .error s1
          | .ok (cvi2, s2) => process_cell_vertices T sq P rest cvi2 s2 := by
      intro r _
      rfl
    constructor
    · intro s1 h
      rw [hstep _ rfl] at h
      cases hres : process_regular_vertex T sq P i cvi s with
      | error s2 =>
        rw [hres] at h
        dsimp at h
        rw [Except.error.injEq] at h
        subst h
        rw [process_regular_vertex_error hres]
        exact hs
      | ok p =>
        obtain ⟨cvi2, s2⟩ := p
        rw [hres] at h
        dsimp at h
        obtain ⟨hok2, hle2, hlen2, hpres2, hidx2⟩ :=
          process_regular_vertex_ok hres hs (hl i (List.mem_cons_self i rest))
        refine ((ih cvi2 s2 ?_ ?_ hok2 ?_).1) s1 h
        · intro j hj
          rw [hlen2]
          exact hl j (List.mem_cons_of_mem i hj)
        · rw [hlen2]
          exact h12
        · intro k hk
          by_cases hki : k = i
          · subst hki
            exact Or.inr hidx2
          · rcases hcvi k hk with hp | hvalid
            · rcases List.mem_cons.mp hp with hp1 | hp2
              · exact absurd hp1 hki
              · exact Or.inl hp2
            · right
              rw [hpres2 k hki]
              exact idx_ok_mono hvalid hle2
    · intro cvi1 s1 h
      rw [hstep _ rfl] at h
      cases hres : process_regular_vertex T sq P i cvi s with
      | error s2 =>
        rw [hres] at h
        dsimp at h
        simp at h
      | ok p =>
        obtain ⟨cvi2, s2⟩ := p
        rw [hres] at h
        dsimp at h
        obtain ⟨hok2, hle2, hlen2, hpres2, hidx2⟩ :=
          process_regular_vertex_ok hres hs (hl i (List.mem_cons_self i rest))
        have hrec := (ih cvi2 s2 ?_ ?_ hok2 ?_).2 cvi1 s1 h
        · exact ⟨hrec.1, le_trans hle2 hrec.2.1, hrec.2.2⟩
        · intro j hj
          rw [hlen2]
          exact hl j (List.mem_cons_of_mem i hj)
        · rw [hlen2]
          exact h12
        · intro k hk
          by_cases hki : k = i
          · subst hki
            exact Or.inr hidx2
          · rcases hcvi k hk with hp | hvalid
            · rcases List.mem_cons.mp hp with hp1 | hp2
              · exact absurd hp1 hki
              · exact Or.inl hp2
            · right
              rw [hpres2 k hki]
              exact idx_ok_mono hvalid hle2

theorem ptv_ok_invariant (TT : TransitionTables) (sq : ℚ → ℚ) (P : TransitionCellParams) (vc : ℕ) :
    ∀ (l : List ℕ) (cvi : List ℤ) (s : MesherState),
    (∀ j ∈ l, j < cvi.length) → cvi.length = 12 → state_ok_t s →
    cvi_ok s.vertices.length vc l cvi →
    (∀ s1, process_tcell_vertices TT sq P l cvi s = .error s1 → state_ok_t s1) ∧
    (∀ cvi1 s1, process_tcell_vertices TT sq P l cvi s = .ok (cvi1, s1) →
      state_ok_t s1 ∧ s.vertices.length ≤ s1.vertices.length ∧
      cvi_ok s1.vertices.length vc [] cvi1) := by
  intro l
  induction l with
  | nil =>
    intro cvi s _ _ hs hcvi
    constructor
    · intro s1 h
      simp [process_tcell_vertices] at h
    · intro cvi1 s1 h
      rw [process_tcell_vertices, Except.ok.injEq, Prod.mk.injEq] at h
      obtain ⟨h1, h2⟩ := h
      subst h1
      subst h2
      exact ⟨hs, le_refl _, hcvi⟩
  | cons i rest ih =>
    intro cvi s hl h12 hs hcvi
    have hstep : process_tcell_vertices TT sq P (i :: rest) cvi s =
        match process_transition_vertex TT sq P i cvi s with
        | .error s1 => .error s1
        | .ok (cvi2, s2) => process_tcell_vertices TT sq P rest cvi2 s2 := rfl
    constructor
    · intro s1 h
      rw [hstep] at h
      cases hres : process_transition_vertex TT sq P i cvi s with
      | error s2 =>
        rw [hres] at h
        dsimp at h
        rw [Except.error.injEq] at h
        subst h
        rw [process_transition_vertex_error hres]
        exact hs
      | ok p =>
        obtain ⟨cvi2, s2⟩ := p
        rw [hres] at h
        dsimp at h
        obtain ⟨hok2, hle2, hlen2, hpres2, hidx2⟩ :=
          process_transition_vertex_ok hres hs (hl i (List.mem_cons_self i rest))
        refine ((ih cvi2 s2 ?_ ?_ hok2 ?_).1) s1 h
        · intro j hj
          rw [hlen2]
          exact hl j (List.mem_cons_of_mem i hj)
        · rw [hlen2]
          exact h12
        · intro k hk
          by_cases hki : k = i
          · subst hki
            exact Or.inr hidx2
          · rcases hcvi k hk with hp | hvalid
            · rcases List.mem_cons.mp hp with hp1 | hp2
              · exact absurd hp1 hki
              · exact Or.inl hp2
            · right
              rw [hpres2 k hki]
              exact idx_ok_mono hvalid hle2
    · intro cvi1 s1 h
      rw [hstep] at h
      cases hres : process_transition_vertex TT sq P i cvi s with
      | error s2 =>
        rw [hres] at h
        dsimp at h
        exact absurd h (by simp)
      | ok p =>
        obtain ⟨cvi2, s2⟩ := p
        rw [hres] at h
        dsimp at h
        obtain ⟨hok2, hle2, hlen2, hpres2, hidx2⟩ :=
          process_transition_vertex_ok hres hs (hl i (List.mem_cons_self i rest))
        have hrec := (ih cvi2 s2 ?_ ?_ hok2 ?_).2 cvi1 s1 h
        · exact ⟨hrec.1, le_trans hle2 hrec.2.1, hrec.2.2⟩
        · intro j hj
          rw [hlen2]
          exact hl j (List.mem_cons_of_mem i hj)
        · rw [hlen2]
          exact h12
        · intro k hk
          by_cases hki : k = i
          · subst hki
            exact Or.inr hidx2
          · rcases hcvi k hk with hp | hvalid
            · rcases List.mem_cons.mp hp with hp1 | hp2
              · exact absurd hp1 hki
              · exact Or.inl hp2
            · right
              rw [hpres2 k hki]
              exact idx_ok_mono hvalid hle2

theorem triangle_index_list_ok {len vc : ℕ} {cvi : List ℤ}
    (hcvi : ∀ k, k < vc → idx_ok len (cvi.getD k (-1)))
    {VI : ℕ → ℕ} (hVI : ∀ k, VI k < vc) (tc : ℕ) :
    ∀ v ∈ triangle_index_list cvi VI tc, idx_ok len v := by
  intro v hv
  unfold triangle_index_list at hv
  rw [List.mem_flatMap] at hv
  obtain ⟨t, _, hmem⟩ := hv
  simp only [List.mem_cons, List.not_mem_nil, or_false] at hmem
  rcases hmem with rfl | rfl | rfl <;> exact hcvi _ (hVI _)

theorem transition_triangle_index_list_ok {len vc : ℕ} {cvi : List ℤ}
    (hcvi : ∀ k, k < vc → idx_ok len (cvi.getD k (-1)))
    {VI : ℕ → ℕ} (hVI : ∀ k, VI k < vc) (tc : ℕ) (fl : Bool) :
    ∀ v ∈ transition_triangle_index_list cvi VI tc fl, idx_ok len v := by
  intro v hv
  unfold transition_triangle_index_list at hv
  rw [List.mem_flatMap] at hv
  obtain ⟨t, _, hmem⟩ := hv
  cases fl <;>
    simp only [Bool.false_eq_true, if_false, if_true, List.mem_cons,
      List.not_mem_nil, or_false] at hmem <;>
    rcases hmem with rfl | rfl | rfl <;> exact hcvi _ (hVI _)

theorem process_regular_cell_ok_error {T : RegularTables} {sq : ℚ → ℚ} {vb : VoxelBuffer}
    {pos : Vec3i} {s s1 : MesherState}
    (heq : process_regular_cell T sq vb pos s = .error s1)
    (hT : regular_tables_ok T) (hs : state_ok_r s) : state_ok_r s1 := by
  unfold process_regular_cell at heq
  dsimp only at heq
  have hs' : state_ok_r (set_reuse_slot s pos 0 (-1)) :=
    state_ok_r_set_reuse_slot hs pos 0 (Or.inl rfl)
  by_cases hcase : regular_case_code vb pos = 0 ∨ regular_case_code vb pos = 255
  · rw [if_pos hcase] at heq
    exact absurd heq (by simp)
  · rw [if_neg hcase] at heq
    split at heq
    next s2 hsc =>
      rw [Except.error.injEq] at heq
      subst heq
      refine (pcv_ok_invariant T sq _ 0 _ _ _ ?_ ?_ hs' ?_).1 _ hsc
      · intro j hj
        rw [List.length_replicate]
        exact lt_of_lt_of_le (List.mem_range.mp hj) (hT _).1
      · exact List.length_replicate 12 (-1)
      · intro k hk
        exact absurd hk (Nat.not_lt_zero k)
    next p hsc =>
      exact absurd heq (by simp)

theorem process_regular_cell_ok_ok {T : RegularTables} {sq : ℚ → ℚ} {vb : VoxelBuffer}
    {pos : Vec3i} {s s1 : MesherState}
    (heq : process_regular_cell T sq vb pos s = .ok s1)
    (hT : regular_tables_ok T) (hs : state_ok_r s) : state_ok_r s1 := by
  unfold process_regular_cell at heq
  dsimp only at heq
  have hs' : state_ok_r (set_reuse_slot s pos 0 (-1)) :=
    state_ok_r_set_reuse_slot hs pos 0 (Or.inl rfl)
  by_cases hcase : regular_case_code vb pos = 0 ∨ regular_case_code vb pos = 255
  · rw [if_pos hcase, Except.ok.injEq] at heq
    subst heq
    exact hs'
  · rw [if_neg hcase] at heq
    split at heq
    next s2 hsc =>
      exact absurd heq (by simp)
    next cvi2 s2 hsc =>
      rw [Except.ok.injEq] at heq
      subst heq
      have hres := (pcv_ok_invariant T sq _
        (((T.cellData (T.cellClass (regular_case_code vb pos))).geometryCounts &&& 240) >>> 4)
        _ _ _ ?_ ?_ hs' ?_).2 cvi2 s2 hsc
      · refine state_ok_r_push_indices hres.1 ?_
        refine triangle_index_list_ok ?_ (fun k => (hT _).2 k) _
        intro k hk
        exact (hres.2.2 k hk).resolve_left (List.not_mem_nil k)
      · intro j hj
        rw [List.length_replicate]
        exact lt_of_lt_of_le (List.mem_range.mp hj) (hT _).1
      · exact List.length_replicate 12 (-1)
      · intro k hk
        exact Or.inl (List.mem_range.mpr hk)

theorem sweep_regular_cells_ok (T : RegularTables) (sq : ℚ → ℚ) (vb : VoxelBuffer)
    (hT : regular_tables_ok T) :
    ∀ (cells : List Vec3i) (s : MesherState), state_ok_r s →
    state_ok_r (sweep_regular_cells T sq vb cells s) := by
  intro cells
  induction cells with
  | nil => intro s hs; exact hs
  | cons p ps ih =>
    intro s hs
    rw [sweep_regular_cells]
    cases hres : process_regular_cell T sq vb p s with
    | ok s2 => exact ih s2 (process_regular_cell_ok_ok hres hT hs)
    | error s2 => exact process_regular_cell_ok_error hres hT hs

theorem process_transition_cell_ok_error {TT : TransitionTables} {sq : ℚ → ℚ}
    {vb : VoxelBuffer} {dir : Side} {fx fy : ℤ} {s s1 : MesherState}
    (heq : process_transition_cell TT sq vb dir fx fy s = .error s1)
    (hTT : transition_tables_ok TT) (hs : state_ok_t s) : state_ok_t s1 := by
  unfold process_transition_cell at heq
  dsimp only at heq
  have hs' : state_ok_t (set_reuse_slot_2d s fx fy 0 (-1)) :=
    state_ok_t_set_reuse_slot_2d hs fx fy 0 (Or.inl rfl)
  by_cases hcase : transition_case_code vb dir fx fy = 0 ∨ transition_case_code vb dir fx fy = 511
  · rw [if_pos hcase] at heq
    exact absurd heq (by simp)
  · rw [if_neg hcase] at heq
    split at heq
    next s2 hsc =>
      rw [Except.error.injEq] at heq
      subst heq
      refine (ptv_ok_invariant TT sq _ 0 _ _ _ ?_ ?_ hs' ?_).1 _ hsc
      · intro j hj
        rw [List.length_replicate]
        exact lt_of_lt_of_le (List.mem_range.mp hj) (hTT _).1
      · exact List.length_replicate 12 (-1)
      · intro k hk
        exact absurd hk (Nat.not_lt_zero k)
    next p hsc =>
      exact absurd heq (by simp)

theorem process_transition_cell_ok_ok {TT : TransitionTables} {sq : ℚ → ℚ}
    {vb : VoxelBuffer} {dir : Side} {fx fy : ℤ} {s s1 : MesherState}
    (heq : process_transition_cell TT sq vb dir fx fy s = .ok s1)
    (hTT : transition_tables_ok TT) (hs : state_ok_t s) : state_ok_t s1 := by
  unfold process_transition_cell at heq
  dsimp only at heq
  have hs' : state_ok_t (set_reuse_slot_2d s fx fy 0 (-1)) :=
    state_ok_t_set_reuse_slot_2d hs fx fy 0 (Or.inl rfl)
  by_cases hcase : transition_case_code vb dir fx fy = 0 ∨ transition_case_code vb dir fx fy = 511
  · rw [if_pos hcase, Except.ok.injEq] at heq
    subst heq
    exact hs'
  · rw [if_neg hcase] at heq
    split at heq
    next s2 hsc =>
      exact absurd heq (by simp)
    next cvi2 s2 hsc =>
      rw [Except.ok.injEq] at heq
      subst heq
      have hres := (ptv_ok_invariant TT sq _
        (TT.cellData (TT.cellClass (transition_case_code vb dir fx fy) &&& 127)).vertexCount
        _ _ _ ?_ ?_ hs' ?_).2 cvi2 s2 hsc
      · refine state_ok_t_push_indices hres.1 ?_
        refine transition_triangle_index_list_ok ?_ (fun k => (hTT _).2 k) _ _
        intro k hk
        exact (hres.2.2 k hk).resolve_left (List.not_mem_nil k)
      · intro j hj
        rw [List.length_replicate]
        exact lt_of_lt_of_le (List.mem_range.mp hj) (hTT _).1
      · exact List.length_replicate 12 (-1)
      · intro k hk
        exact Or.inl (List.mem_range.mpr hk)

theorem sweep_transition_cells_ok (TT : TransitionTables) (sq : ℚ → ℚ) (vb : VoxelBuffer)
    (dir : Side) (hTT : transition_tables_ok TT) :
    ∀ (cells : List (ℤ × ℤ)) (s : MesherState), state_ok_t s →
    state_ok_t (sweep_transition_cells TT sq vb dir cells s) := by
  intro cells
  induction cells with
  | nil => intro s hs; exact hs
  | cons p ps ih =>
    intro s hs
    rw [sweep_transition_cells]
    cases hres : process_transition_cell TT sq vb dir p.1 p.2 s with
    | ok s2 => exact ih s2 (process_transition_cell_ok_ok hres hTT hs)
    | error s2 => exact process_transition_cell_ok_error hres hTT hs

/-- C7: for every input block, every value in the output index buffer of the
regular pass and of each transition pass is a valid reference to an emitted
vertex: nonnegative and strictly below the final vertex count (the proof
maintains that it was below the vertex count already when appended, caches
included). The hypotheses are the well-formedness facts of Lengyel's tables
(at most 12 vertices per class; triangle lists reference only vertices of the
class) and a cleared index buffer at the start. -/
theorem C7_indices_reference_emitted_vertices (T : RegularTables) (TT : TransitionTables)
    (sq : ℚ → ℚ) (vb : VoxelBuffer) (dir : Side) (s0 : MesherState)
    (hT : regular_tables_ok T) (hTT : transition_tables_ok TT)
    (h0 : s0.indices = []) :
    (∀ v ∈ (build_internal T sq vb s0).indices,
      0 ≤ v ∧ v < ((build_internal T sq vb s0).vertices.length : ℤ)) ∧
    (∀ v ∈ (build_transition TT sq vb dir s0).indices,
      0 ≤ v ∧ v < ((build_transition TT sq vb dir s0).vertices.length : ℤ)) := by
  constructor
  · unfold build_internal
    split_ifs with hu
    · intro v hv
      rw [h0] at hv
      exact absurd hv (List.not_mem_nil v)
    · dsimp only
      have hinit : state_ok_r (reset_reuse_cells vb.sizeV s0) := by
        refine ⟨deck_ok_replicate _ _ _, deck_ok_replicate _ _ _, ?_⟩
        intro v hv
        rw [show (reset_reuse_cells vb.sizeV s0).indices = s0.indices from rfl, h0] at hv
        exact absurd hv (List.not_mem_nil v)
      have hfin := sweep_regular_cells_ok T sq vb hT
        (cell_positions_list ⟨MIN_PADDING, MIN_PADDING, MIN_PADDING⟩
          (vb.sizeV - ⟨MAX_PADDING, MAX_PADDING, MAX_PADDING⟩)) _ hinit
      exact fun v hv => hfin.2.2 v hv
  · unfold build_transition
    split_ifs with hu hsz
    · intro v hv
      rw [h0] at hv
      exact absurd hv (List.not_mem_nil v)
    · intro v hv
      rw [h0] at hv
      exact absurd hv (List.not_mem_nil v)
    · dsimp only
      have hinit : state_ok_t (reset_reuse_cells_2d vb.sizeV s0) := by
        refine ⟨deck_ok_replicate _ _ _, deck_ok_replicate _ _ _, ?_⟩
        intro v hv
        rw [show (reset_reuse_cells_2d vb.sizeV s0).indices = s0.indices from rfl, h0] at hv
        exact absurd hv (List.not_mem_nil v)
      have hfin := sweep_transition_cells_ok TT sq vb dir hTT
        (tcell_positions_list
          (Vec3i.axis ⟨MIN_PADDING, MIN_PADDING, MIN_PADDING⟩ (face_axes dir).1)
          (Vec3i.axis (vb.sizeV - ⟨MAX_PADDING, MAX_PADDING, MAX_PADDING⟩) (face_axes dir).1 - 1)
          (Vec3i.axis ⟨MIN_PADDING, MIN_PADDING, MIN_PADDING⟩ (face_axes dir).2)
          (Vec3i.axis (vb.sizeV - ⟨MAX_PADDING, MAX_PADDING, MAX_PADDING⟩) (face_axes dir).2 - 1))
        _ hinit
      exact fun v hv => hfin.2.2 v hv

/-- Witness for C7 on the concrete two-solid-voxel block and trivial tables. -/
theorem C7_indices_reference_emitted_vertices_witness :
    (∀ v ∈ (build_internal T_triv sq_id vb_bad s_init).indices,
      0 ≤ v ∧ v < ((build_internal T_triv sq_id vb_bad s_init).vertices.length : ℤ)) ∧
    (∀ v ∈ (build_transition TT_triv sq_id vb_bad Side.negZ s_init).indices,
      0 ≤ v ∧ v < ((build_transition TT_triv sq_id vb_bad Side.negZ s_init).vertices.length : ℤ)) :=
  C7_indices_reference_emitted_vertices T_triv TT_triv sq_id vb_bad Side.negZ s_init
    (by
      intro cls
      constructor
      · have h16 : (T_triv.cellData cls).geometryCounts = 16 := rfl
        rw [h16]
        decide
      · intro k
        have h16 : (T_triv.cellData cls).geometryCounts = 16 := rfl
        have h0 : (T_triv.cellData cls).vertexIndex k = 0 := rfl
        rw [h16, h0]
        decide)
    (by
      intro cls
      constructor
      · have h16 : (TT_triv.cellData cls).geometryCounts = 16 := rfl
        show (TT_triv.cellData cls).geometryCounts >>> 4 ≤ 12
        rw [h16]
        decide
      · intro k
        have h16 : (TT_triv.cellData cls).geometryCounts = 16 := rfl
        have h0 : TT_triv.cellVertexIndex cls k = 0 := rfl
        show TT_triv.cellVertexIndex cls k < (TT_triv.cellData cls).geometryCounts >>> 4
        rw [h16, h0]
        decide)
    rfl
